import Mathlib

/-!
Verification development for the `media_analytics` repository
(`scripts/etl_pipeline.py`): a shallow embedding in Lean 4 of the
extract / transform / load pipeline, together with theorems settling the
specification's claims about it.

Modelling conventions:
* a pandas `DataFrame` is modelled row-major (`DF`): a list of column
  names and a list of rows, each row a list of `Value` cells aligned with
  the column list;
* a cell value (`Value`) covers the Python scalar types that flow through
  the pipeline: strings, ints, decimal floats (exact mantissa/exponent),
  booleans, `None`, float NaN (the missing-value marker pandas inserts),
  parsed timestamps (epoch seconds), dates (epoch days) and times of day
  (seconds after midnight);
* fallible Python code is embedded with `Except String`;
* external systems (PostgreSQL connection, cursor) are modelled by an
  environment supplying the outcome of every database round-trip, and by
  a trace of database events (`DBEvent`) that the load stage emits.
-/

/-- Decidable equality of `Except` results, for concrete evaluation. -/
instance exceptDecEq {ε α : Type} [DecidableEq ε] [DecidableEq α] :
    DecidableEq (Except ε α) := fun a b =>
  match a, b with
  | .error e, .error e' =>
    if h : e = e' then isTrue (by rw [h]) else isFalse (by simp [h])
  | .ok x, .ok y =>
    if h : x = y then isTrue (by rw [h]) else isFalse (by simp [h])
  | .error _, .ok _ => isFalse (by simp)
  | .ok _, .error _ => isFalse (by simp)

/-! ### Generic list helpers -/

/-- First index of `x` in `l`, or `none` (used for pandas column lookup). -/
def idxOf? (l : List String) (x : String) : Option Nat :=
  match l with
  | [] => none
  | c :: cs => if c = x then some 0 else (idxOf? cs x).map (· + 1)

/-- Variant of `List.mapM` specialised to `Except`, written by plain recursion so that
its inductive behaviour is transparent in proofs. -/
def exMap (f : α → Except String β) : List α → Except String (List β)
  | [] => .ok []
  | a :: as =>
    match f a with
    | .error e => .error e
    | .ok b =>
      match exMap f as with
      | .error e => .error e
      | .ok bs => .ok (b :: bs)

/-- Split a list into chunks of `bs` elements (fuel-based recursion). -/
def chunksGo (bs : Nat) : Nat → List α → List (List α)
  | 0, _ => []
  | _, [] => []
  | fuel + 1, xs => xs.take bs :: chunksGo bs fuel (xs.drop bs)

/-- The `range(0, len(xs), bs)` batching of `load_data`. -/
def chunks (bs : Nat) (xs : List α) : List (List α) :=
  chunksGo bs xs.length xs

/-! ### Structural string helpers

Character-list implementations of the handful of string operations the
pipeline needs (`str.lower`, `str.strip`, `str.split`, digit parsing).
They are written by structural recursion so that every embedded function
evaluates inside the kernel.  `lower` is ASCII-only: every string this
pipeline manipulates is ASCII. -/

/-- Python `str.strip` / JSON whitespace characters. -/
def isPyWs (c : Char) : Bool :=
  c = ' ' || c = '\t' || c = '\n' || c = '\r' || c = '\x0b' || c = '\x0c'

/-- Strip leading and trailing whitespace (Python `str.strip()`). -/
def trimL (cs : List Char) : List Char :=
  ((cs.dropWhile isPyWs).reverse.dropWhile isPyWs).reverse

/-- Python `str.split(sep)` for a one-character separator (keeps empty
pieces, as Python does). -/
def splitOnCharL (sep : Char) : List Char → List (List Char)
  | [] => [[]]
  | c :: t =>
    let r := splitOnCharL sep t
    if c = sep then [] :: r
    else
      match r with
      | g :: gs => (c :: g) :: gs
      | [] => [[c]]

/-- Numeric value of a digit run. -/
def digitsToNat (cs : List Char) : Nat :=
  cs.foldl (fun a c => a * 10 + (c.toNat - 48)) 0

/-- Parse a non-empty all-digit character run (`String.toNat?`). -/
def toNatL? (cs : List Char) : Option Nat :=
  if cs ≠ [] ∧ cs.all Char.isDigit then some (digitsToNat cs) else none

/-- ASCII lower-casing of one character (Python `str.lower`; every
string in this pipeline is ASCII). -/
def pyLowerChar (c : Char) : Char :=
  if 65 ≤ c.toNat ∧ c.toNat ≤ 90 then Char.ofNat (c.toNat + 32) else c

/-- ASCII lower-casing of a string. -/
def pyLower (s : String) : String :=
  String.mk (s.data.map pyLowerChar)

/-! ### Cell values -/

/-- A Python scalar value as it appears in a DataFrame cell. -/
inductive Value where
  /-- a Python `str` -/
  | str (s : String)
  /-- a Python / numpy integer -/
  | int (n : Int)
  /-- a decimal float, exactly `m / 10 ^ e` (IEEE rounding is irrelevant
  to every claim, so floats are carried as exact decimals) -/
  | dec (m : Int) (e : Nat)
  /-- a Python / numpy bool -/
  | bool (b : Bool)
  /-- Python `None` (JSON `null`) -/
  | null
  /-- float NaN: the marker pandas stores for a missing cell -/
  | nan
  /-- a parsed `pd.Timestamp` carrying epoch seconds -/
  | time (t : Int)
  /-- a `datetime.date` carrying days since 1970-01-01 -/
  | date (d : Int)
  /-- a `datetime.time` carrying seconds after midnight -/
  | timeOfDay (s : Int)
deriving DecidableEq, Repr

/-- Python `pd.isna` on a cell: `None` and NaN are the missing values. -/
def Value.isNa : Value → Bool
  | .null => true
  | .nan => true
  | _ => false

/-- Cells whose Python type makes a pandas column `object`-dtyped and
eligible for `astype(str)` conversion: strings, `datetime.date` and
`datetime.time` objects.  (Numbers, bools and datetimes get their own
dtypes; `None`/NaN alongside only numbers is promoted to float NaN.) -/
def Value.isStrLike : Value → Bool
  | .str _ => true
  | .date _ => true
  | .timeOfDay _ => true
  | _ => false

/-! ### Calendar arithmetic

`days_from_civil` / `civil_from_days` (the standard proleptic-Gregorian
conversion), used to model `pd.to_datetime` and the `.dt` accessors. -/

/-- Gregorian leap-year test. -/
def isLeap (y : Int) : Bool :=
  (y % 4 == 0 && y % 100 != 0) || y % 400 == 0

/-- Number of days in month `m` of year `y` (`m` is 1-based). -/
def daysInMonth (y m : Int) : Int :=
  if m = 2 then (if isLeap y then 29 else 28)
  else if m = 4 ∨ m = 6 ∨ m = 9 ∨ m = 11 then 30
  else 31

/-- Days since 1970-01-01 of the civil date `y-m-d`. -/
def daysFromCivil (y m d : Int) : Int :=
  let y' := if m ≤ 2 then y - 1 else y
  let era := Int.fdiv y' 400
  let yoe := y' - era * 400
  let mp := if m > 2 then m - 3 else m + 9
  let doy := Int.fdiv (153 * mp + 2) 5 + d - 1
  let doe := yoe * 365 + Int.fdiv yoe 4 - Int.fdiv yoe 100 + doy
  era * 146097 + doe - 719468

/-- Civil date `(y, m, d)` of a days-since-epoch count. -/
def civilFromDays (z : Int) : Int × Int × Int :=
  let z' := z + 719468
  let era := Int.fdiv z' 146097
  let doe := z' - era * 146097
  let yoe := Int.fdiv (doe - Int.fdiv doe 1460 + Int.fdiv doe 36524 - Int.fdiv doe 146096) 365
  let y := yoe + era * 400
  let doy := doe - (365 * yoe + Int.fdiv yoe 4 - Int.fdiv yoe 100)
  let mp := Int.fdiv (5 * doy + 2) 153
  let d := doy - Int.fdiv (153 * mp + 2) 5 + 1
  let m := if mp < 10 then mp + 3 else mp - 9
  (if m ≤ 2 then y + 1 else y, m, d)

/-- Left-pad a numeral with zeros to width `w` (for ISO rendering). -/
def padNum (w : Nat) (n : Int) : String :=
  let s := toString n
  if s.length < w then String.mk (List.replicate (w - s.length) '0') ++ s else s

/-- ISO rendering of a `datetime.date` (what Python `str()` prints). -/
def isoDate (days : Int) : String :=
  let c := civilFromDays days
  padNum 4 c.1 ++ "-" ++ padNum 2 c.2.1 ++ "-" ++ padNum 2 c.2.2

/-- ISO rendering of a `datetime.time` (what Python `str()` prints). -/
def isoTime (secs : Int) : String :=
  padNum 2 (Int.fdiv secs 3600) ++ ":" ++ padNum 2 (Int.emod (Int.fdiv secs 60) 60)
    ++ ":" ++ padNum 2 (Int.emod secs 60)

/-- Decimal rendering of a `Value.dec` float. -/
def decString (m : Int) (e : Nat) : String :=
  if e = 0 then toString m
  else
    let sign := if m < 0 then "-" else ""
    let a := Int.natAbs m
    let intPart := a / 10 ^ e
    let frac := a % 10 ^ e
    sign ++ toString intPart ++ "." ++ padNum e (frac : Int)

/-- Python `str()` of a cell, as applied by `astype(str)` and f-strings.
`str(np.nan) = "nan"`, `str(None) = "None"`, `str(True) = "True"`. -/
def pyStr : Value → String
  | .str s => s
  | .int n => toString n
  | .dec m e => decString m e
  | .bool b => if b then "True" else "False"
  | .null => "None"
  | .nan => "nan"
  | .time t => isoDate (Int.fdiv t 86400) ++ " " ++ isoTime (Int.emod t 86400)
  | .date d => isoDate d
  | .timeOfDay s => isoTime s

/-- One step of `astype(str).str.lower()` on a cell of a converted column. -/
def stringifyLower (v : Value) : Value :=
  .str (pyLower (pyStr v))

/-! ### DataFrames -/

/-- Row-major model of a pandas DataFrame: `cols` are the column labels,
each row is a list of cells aligned with `cols` (a missing cell is
`Value.nan`, as in pandas). -/
structure DF where
  cols : List String
  rows : List (List Value)
deriving DecidableEq, Repr

/-- The empty DataFrame `pd.DataFrame()`. -/
def DF.emptyDF : DF := ⟨[], []⟩

/-- Pandas `df.empty`: true when either axis has length zero. -/
def DF.isEmptyDF (df : DF) : Bool :=
  df.rows.isEmpty || df.cols.isEmpty

/-- Well-formedness: every row has exactly one cell per column. -/
def DF.wf (df : DF) : Prop :=
  ∀ r ∈ df.rows, r.length = df.cols.length

instance (df : DF) : Decidable df.wf := by
  unfold DF.wf; infer_instance

/-- Column lookup `df[c]` (`none` models the `KeyError`). -/
def DF.getCol? (df : DF) (c : String) : Option (List Value) :=
  (idxOf? df.cols c).map (fun i => df.rows.map (fun r => r.getD i Value.nan))

/-- Column lookup as `Except` for use inside the embedded functions. -/
def DF.colE (df : DF) (c : String) : Except String (List Value) :=
  match df.getCol? c with
  | some vs => .ok vs
  | none => .error ("KeyError: " ++ c)

/-- Column assignment `df[c] = vs`: overwrites an existing column in
place, otherwise appends a new column on the right. -/
def DF.setCol (df : DF) (c : String) (vs : List Value) : DF :=
  match idxOf? df.cols c with
  | some i => ⟨df.cols, List.zipWith (fun r v => r.set i v) df.rows vs⟩
  | none => ⟨df.cols ++ [c], List.zipWith (fun r v => r ++ [v]) df.rows vs⟩

/-- A raw record: one parsed JSON object, in field order. -/
abbrev Record := List (String × Value)

/-- Last binding of key `k` in a record (later JSON duplicates win,
matching Python dict construction). -/
def recLookup (r : Record) (k : String) : Option Value :=
  match r with
  | [] => none
  | (k', v) :: rest =>
    match recLookup rest k with
    | some v' => some v'
    | none => if k' = k then some v else none

/-- Accumulate column labels in order of first appearance. -/
def collectCols (recs : List Record) : List String :=
  recs.foldl (fun acc r =>
    acc ++ ((r.map Prod.fst).filter (fun k => ¬ acc.contains k)).eraseDups) []

/-- Pandas `pd.DataFrame(list_of_dicts)`: columns are the union of keys in order
of first appearance; a record missing a key gets NaN in that cell. -/
def dfFromRecords (recs : List Record) : DF :=
  let cols := collectCols recs
  ⟨cols, recs.map (fun r => cols.map (fun c => (recLookup r c).getD Value.nan))⟩

/-! ### JSON values and parsing

A model of `json.loads` sufficient for the input files this pipeline
reads (objects, arrays, strings without escape sequences, integers,
decimal fractions without exponents, booleans, null).  A file whose
content falls outside this subset parses to `none`, i.e. is treated as a
parse failure, which only narrows the set of accepted inputs; every fact
proved about `extract_data` is generic in which files parse. -/

inductive Json where
  | str (s : String)
  | int (n : Int)
  | dec (m : Int) (e : Nat)
  | bool (b : Bool)
  | null
  | arr (xs : List Json)
  | obj (fs : List (String × Json))

/-- JSON insignificant whitespace. -/
def isJsonWs (c : Char) : Bool :=
  c = ' ' || c = '\n' || c = '\t' || c = '\r'

/-- Drop leading JSON whitespace. -/
def skipWs (cs : List Char) : List Char :=
  cs.dropWhile isJsonWs

/-- Parse a JSON string body after the opening quote; no escapes. -/
def parseStrBody : List Char → Option (String × List Char)
  | [] => none
  | c :: rest =>
    if c = '"' then some ("", rest)
    else if c = '\\' then none
    else (parseStrBody rest).map (fun p => (String.mk [c] ++ p.1, p.2))

/-- Parse a digit run into its value and length. -/
def parseDigits : List Char → Option (Nat × Nat × List Char)
  | cs =>
    let ds := cs.takeWhile Char.isDigit
    if ds.isEmpty then none
    else some (digitsToNat ds, ds.length, cs.drop ds.length)

/-- Parse a JSON number (integer or decimal fraction, no exponent). -/
def parseNumber (cs : List Char) : Option (Json × List Char) :=
  let (neg, cs₁) := match cs with
    | '-' :: t => (true, t)
    | _ => (false, cs)
  match parseDigits cs₁ with
  | none => none
  | some (ip, _, cs₂) =>
    match cs₂ with
    | '.' :: cs₃ =>
      match parseDigits cs₃ with
      | none => none
      | some (fp, fl, cs₄) =>
        let mant : Int := (ip * 10 ^ fl + fp : Nat)
        some (.dec (if neg then -mant else mant) fl, cs₄)
    | _ => some (.int (if neg then -(ip : Int) else (ip : Int)), cs₂)

mutual

/-- Recursive-descent JSON value parser (fuel-indexed). -/
def parseJsonV : Nat → List Char → Option (Json × List Char)
  | 0, _ => none
  | fuel + 1, cs =>
    match skipWs cs with
    | '"' :: rest => (parseStrBody rest).map (fun p => (.str p.1, p.2))
    | '[' :: rest => parseJsonArr fuel (skipWs rest)
    | '{' :: rest => parseJsonObj fuel (skipWs rest)
    | 't' :: 'r' :: 'u' :: 'e' :: rest => some (.bool true, rest)
    | 'f' :: 'a' :: 'l' :: 's' :: 'e' :: rest => some (.bool false, rest)
    | 'n' :: 'u' :: 'l' :: 'l' :: rest => some (.null, rest)
    | rest => parseNumber rest

/-- Parse array elements after `[` (leading whitespace consumed). -/
def parseJsonArr : Nat → List Char → Option (Json × List Char)
  | 0, _ => none
  | fuel + 1, cs =>
    match cs with
    | ']' :: rest => some (.arr [], rest)
    | _ =>
      match parseJsonV fuel cs with
      | none => none
      | some (v, cs₁) =>
        match skipWs cs₁ with
        | ',' :: cs₂ =>
          match parseJsonArr fuel (skipWs cs₂) with
          | some (.arr vs, cs₃) => some (.arr (v :: vs), cs₃)
          | _ => none
        | ']' :: cs₂ => some (.arr [v], cs₂)
        | _ => none

/-- Parse object members after the opening brace (leading whitespace
consumed). -/
def parseJsonObj : Nat → List Char → Option (Json × List Char)
  | 0, _ => none
  | fuel + 1, cs =>
    match cs with
    | '}' :: rest => some (.obj [], rest)
    | '"' :: rest =>
      match parseStrBody rest with
      | none => none
      | some (k, cs₁) =>
        match skipWs cs₁ with
        | ':' :: cs₂ =>
          match parseJsonV fuel cs₂ with
          | none => none
          | some (v, cs₃) =>
            match skipWs cs₃ with
            | ',' :: cs₄ =>
              match parseJsonObj fuel (skipWs cs₄) with
              | some (.obj fs, cs₅) => some (.obj ((k, v) :: fs), cs₅)
              | _ => none
            | '}' :: cs₄ => some (.obj [(k, v)], cs₄)
            | _ => none
        | _ => none
    | _ => none

end

/-- Python `json.loads` on a character list: parse a complete JSON document
(trailing whitespace only). -/
def json_loadsL (cs : List Char) : Option Json :=
  match parseJsonV (cs.length + 1) cs with
  | some (v, rest) => if (skipWs rest).isEmpty then some v else none
  | none => none

/-- Python `json.loads`. -/
def json_loads (s : String) : Option Json :=
  json_loadsL s.data

/-- Scalar JSON value to DataFrame cell.  Nested arrays/objects inside a
record are flattened to their textual form (pandas would keep the Python
object; its only observable use downstream is `str()`). -/
def jsonScalar : Json → Value
  | .str s => .str s
  | .int n => .int n
  | .dec m e => .dec m e
  | .bool b => .bool b
  | .null => .null
  | .arr _ => .str "<nested>"
  | .obj _ => .str "<nested>"

/-- A parsed JSON object as a raw record; a non-object JSON value
contributes an empty record (pandas would produce a positional column;
no claim exercises that corner). -/
def jsonToRecord : Json → Record
  | .obj fs => fs.map (fun p => (p.1, jsonScalar p.2))
  | _ => []

/-! ### String scanning helpers (Python `in` and the two regexes) -/

/-- Whether `pat` is a prefix of `hay` (character lists). -/
def startsWithL : List Char → List Char → Bool
  | [], _ => true
  | _ :: _, [] => false
  | p :: ps, c :: cs => p = c && startsWithL ps cs

/-- Whether `pat` occurs somewhere in `hay` (Python `pat in hay`; the empty
pattern matches everywhere, as in Python). -/
def containsL (pat : List Char) : List Char → Bool
  | [] => pat.isEmpty
  | c :: t => startsWithL pat (c :: t) || containsL pat t

/-- Python `pat in hay` on strings. -/
def strContains (hay pat : String) : Bool :=
  containsL pat.data hay.data

/-- The marker of the `content_category` regex. -/
def categoryMarker : List Char := "news.example.com/".data

/-- The regex search of `extract_category` (pattern: the literal host
marker followed by a captured path segment): at each occurrence of
the literal marker, try to take a non-empty run of non-`/` characters;
on failure the scan continues at the next position (regex backtracking
over later occurrences). -/
def extractCatL : List Char → Option (List Char)
  | [] => none
  | c :: t =>
    (if startsWithL categoryMarker (c :: t) then
      let rest := (c :: t).drop categoryMarker.length
      let seg := rest.takeWhile (fun ch => ch ≠ '/')
      if seg.isEmpty then none else some seg
    else none) <|> extractCatL t

/-- Function `extract_category` from `etl_pipeline.py` (lines 166-170). -/
def extract_category (url : String) : String :=
  match extractCatL url.data with
  | some seg => String.mk seg
  | none => "unknown"

/-- The marker of the `article_id` regex. -/
def articleMarker : List Char := "article-".data

/-- The regex search of `extract_article_id` (pattern: the literal
marker followed by captured digits): at each occurrence of the literal
`article-`, try to take a non-empty digit run, scanning on otherwise. -/
def extractAidL : List Char → Option (List Char)
  | [] => none
  | c :: t =>
    (if startsWithL articleMarker (c :: t) then
      let rest := (c :: t).drop articleMarker.length
      let ds := rest.takeWhile Char.isDigit
      if ds.isEmpty then none else some ds
    else none) <|> extractAidL t

/-- Function `extract_article_id` from `etl_pipeline.py` (lines 172-176). -/
def extract_article_id (url : String) : String :=
  match extractAidL url.data with
  | some ds => String.mk ds
  | none => "unknown"

/-- Function `categorize_referrer` from `etl_pipeline.py` (lines 178-191).  The
substring tests run against the cell value exactly as stored — the
lower-casing pass over string columns happens *after* this function is
applied (line 141 versus lines 144-150).  A non-string, non-missing cell
makes Python's `in` raise `TypeError`. -/
def categorize_referrer (referrer : Value) : Except String String :=
  if referrer.isNa then .ok "direct"
  else match referrer with
    | .str r =>
      if r = "" then .ok "direct"
      else if strContains r "google" then .ok "search"
      else if strContains r "facebook" || strContains r "twitter"
          || strContains r "instagram" || strContains r "social" then .ok "social"
      else if strContains r "news" || strContains r "nytimes"
          || strContains r "cnn" then .ok "news"
      else if strContains r "email" || strContains r "newsletter" then .ok "email"
      else .ok "other"
    | _ => .error "TypeError: argument of type is not iterable"

/-! ### Timestamp parsing

`pd.to_datetime` restricted to the ISO form `YYYY-MM-DDTHH:MM:SS` with
optional trailing `Z` and optional space separator — the only shapes the
pipeline's input files carry.  Any other cell is a parse failure, which
aborts the transform exactly as an unparseable timestamp does in the
source. -/

/-- Parse `HH:MM:SS` into seconds after midnight. -/
def parseHms (cs : List Char) : Option Int :=
  match splitOnCharL ':' cs with
  | [hh, mm, ss] =>
    match toNatL? hh, toNatL? mm, toNatL? ss with
    | some h, some m, some sec =>
      if h < 24 && m < 60 && sec < 60 then some ((h : Int) * 3600 + m * 60 + sec)
      else none
    | _, _, _ => none
  | _ => none

/-- Parse `YYYY-MM-DD` into days since the epoch. -/
def parseYmd (cs : List Char) : Option Int :=
  match splitOnCharL '-' cs with
  | [ys, ms, ds] =>
    match toNatL? ys, toNatL? ms, toNatL? ds with
    | some y, some m, some d =>
      if 1 ≤ m && m ≤ 12 && 1 ≤ d && (d : Int) ≤ daysInMonth y m then
        some (daysFromCivil y m d)
      else none
    | _, _, _ => none
  | _ => none

/-- Parse an ISO timestamp string into epoch seconds. -/
def parseIso (s : String) : Option Int :=
  let cs := s.data
  let cs := if cs.getLast? = some 'Z' then cs.dropLast else cs
  let parts := if cs.contains 'T' then splitOnCharL 'T' cs else splitOnCharL ' ' cs
  match parts with
  | [date, time] =>
    match parseYmd date, parseHms time with
    | some days, some secs => some (days * 86400 + secs)
    | _, _ => none
  | _ => none

/-- Pandas `pd.to_datetime` on one cell of the `timestamp` column. -/
def parseTsValue (v : Value) : Except String Int :=
  match v with
  | .str s =>
    match parseIso s with
    | some t => .ok t
    | none => .error ("to_datetime: could not parse " ++ s)
  | _ => .error "to_datetime: unsupported cell"

/-! ### The transform stage -/

/-- Names of the columns `transform_data` writes (timestamp overwrite and
the eleven derived columns). -/
def derivedCols : List String :=
  ["timestamp", "event_date", "event_time", "event_hour", "event_day",
   "event_month", "event_year", "event_dayofweek", "is_weekend",
   "content_category", "article_id", "referrer_category"]

/-- A column is converted by the lower-casing loop iff it is
`object`-dtyped (holds a string-like cell) and has at least one
non-missing value (lines 144-150: `select_dtypes(['object'])` then the
`notna().any()` guard). -/
def colConverted (vals : List Value) : Bool :=
  vals.any Value.isStrLike && vals.any (fun v => ¬ v.isNa)

/-- The lower-casing pass (lines 143-150): every `object` column with a
non-null value is replaced by `astype(str).str.lower()` of itself;
other columns are untouched. -/
def lowerStringCols (df : DF) : DF :=
  let flags := (List.range df.cols.length).map
    (fun i => colConverted (df.rows.map (fun r => r.getD i Value.nan)))
  ⟨df.cols,
   df.rows.map (fun r =>
     List.zipWith (fun b v => if b then stringifyLower v else v) flags r)⟩

/-- The `content_category` cell computation: the lambda at lines 132-134
applies `extract_category` to the raw cell; `re.search` on a non-string
raises `TypeError`. -/
def catCell (v : Value) : Except String Value :=
  match v with
  | .str s => .ok (.str (extract_category s))
  | _ => .error "TypeError: expected string or bytes-like object"

/-- The `article_id` cell computation (lines 136-138). -/
def aidCell (v : Value) : Except String Value :=
  match v with
  | .str s => .ok (.str (extract_article_id s))
  | _ => .error "TypeError: expected string or bytes-like object"

/-- The `referrer_category` cell computation (line 141). -/
def refCell (v : Value) : Except String Value :=
  (categorize_referrer v).map Value.str

/-- Lines 111-150 of `transform_data`: timestamp conversion, calendar
decomposition, URL extraction, referrer classification, lower-casing. -/
def enrich (df : DF) : Except String DF := do
  let tsRaw ← df.colE "timestamp"
  let ts ← exMap parseTsValue tsRaw
  let df := df.setCol "timestamp" (ts.map Value.time)
  let days := ts.map (fun t => Int.fdiv t 86400)
  let df := df.setCol "event_date" (days.map Value.date)
  let df := df.setCol "event_time" (ts.map (fun t => Value.timeOfDay (Int.emod t 86400)))
  let df := df.setCol "event_hour" (ts.map (fun t => Value.int (Int.fdiv (Int.emod t 86400) 3600)))
  let df := df.setCol "event_day" (days.map (fun d => Value.int (civilFromDays d).2.2))
  let df := df.setCol "event_month" (days.map (fun d => Value.int (civilFromDays d).2.1))
  let df := df.setCol "event_year" (days.map (fun d => Value.int (civilFromDays d).1))
  let dows := days.map (fun d => Int.emod (d + 3) 7)
  let df := df.setCol "event_dayofweek" (dows.map Value.int)
  let df := df.setCol "is_weekend" (dows.map (fun w => Value.bool (w == 5 || w == 6)))
  let urls ← df.colE "page_url"
  let cats ← exMap catCell urls
  let df := df.setCol "content_category" cats
  let aids ← exMap aidCell urls
  let df := df.setCol "article_id" aids
  let refs ← df.colE "referrer"
  let rcats ← exMap refCell refs
  let df := df.setCol "referrer_category" rcats
  .ok (lowerStringCols df)

/-- One synthesized id: the f-string at line 155,
`f"{user_id}_{session_id}_{int(timestamp.timestamp())}"`. -/
def synthIdCell (u s tv : Value) : Except String Value :=
  match tv with
  | .time t => .ok (.str (pyStr u ++ "_" ++ pyStr s ++ "_" ++ toString t))
  | _ => .error "timestamp cell is not a datetime"

/-- Lines 152-157: the all-or-nothing `interaction_id` synthesis — it
runs only when the whole column is absent. -/
def addInteractionId (df : DF) : Except String DF :=
  if "interaction_id" ∈ df.cols then .ok df
  else do
    let us ← df.colE "user_id"
    let ss ← df.colE "session_id"
    let ts ← df.colE "timestamp"
    let ids ← exMap (fun p : Value × Value × Value => synthIdCell p.1 p.2.1 p.2.2)
      (us.zip (ss.zip ts))
    .ok (df.setCol "interaction_id" ids)

/-- Function `transform_data` from `etl_pipeline.py` (lines 99-164). -/
def transform_data (df : DF) : Except String DF :=
  if df.isEmptyDF then .ok df
  else do
    let d ← enrich df
    addInteractionId d

/-! ### The extract stage -/

/-- Parsing of one file's content (lines 70-84): array format when the
stripped content starts with `[`, otherwise newline-delimited objects.
An `.error` result models the exception that makes lines 87-88 skip the
file; in the line-delimited branch one bad line discards the whole
file's `data_list`, because `all_data.extend` runs only after the loop
finishes. -/
def parseFileContent (content : String) : Except String (List Json) :=
  if startsWithL ['['] (trimL content.data) then
    match json_loads content with
    | some (.arr xs) => .ok xs
    | _ => .error "json.loads failed"
  else
    exMap
      (fun line =>
        match json_loadsL line with
        | some j => .ok j
        | none => .error "json.loads failed")
      ((splitOnCharL '\n' (trimL content.data)).filter (fun l => trimL l ≠ []))

/-- Function `extract_data` from `etl_pipeline.py` (lines 54-97), over the list of
the directory's `.json` file contents in glob order.  A file that fails
to parse contributes nothing; the remaining files' records are
concatenated in file-then-line order. -/
def extract_data (files : List String) : DF :=
  if files.isEmpty then DF.emptyDF
  else
    let allData := files.foldl
      (fun acc f =>
        match parseFileContent f with
        | .ok js => acc ++ js
        | .error _ => acc) []
    if allData.isEmpty then DF.emptyDF
    else dfFromRecords (allData.map jsonToRecord)

/-! ### The load stage -/

/-- Value conversion of the batch loop (lines 230-242).  numpy ints and
floats map to the same numbers; a numpy datetime is formatted with
`strftime('%Y-%m-%d %H:%M:%S')`; `None` and Python float NaN become SQL
NULL (`Value.null`).  Everything else — including the literal string
`"nan"` — passes through unchanged. -/
def loadConvert : Value → Value
  | .null => .null
  | .nan => .null
  | .time t => .str (isoDate (Int.fdiv t 86400) ++ " " ++ isoTime (Int.emod t 86400))
  | v => v

/-- Observable database actions of one `load_data` call. -/
inductive DBEvent where
  | connect
  | executeBatch (rows : List (List Value))
  | commit
  | rollback
  | closeCursor
  | closeConn
deriving DecidableEq, Repr

/-- Environment fixing the outcome of each database round-trip during a
load: whether the connection opens, what rowcount each
`cursor.executemany` reports (or which exception it raises), and whether
the commit succeeds. -/
structure LoadEnv where
  connectOk : Bool
  batchRes : Nat → Except String Nat
  commitOk : Bool

/-- The batch loop (lines 224-247): convert and execute each batch,
accumulating `inserted += cursor.rowcount`; the first exception aborts
the loop. -/
def runBatches (env : LoadEnv) : Nat → List (List (List Value)) →
    List DBEvent × Except String Nat
  | _, [] => ([], .ok 0)
  | i, b :: bs =>
    let conv := b.map (fun r => r.map loadConvert)
    match env.batchRes i with
    | .error e => ([.executeBatch conv], .error e)
    | .ok n =>
      let rest := runBatches env (i + 1) bs
      (.executeBatch conv :: rest.1,
       match rest.2 with
       | .error e => .error e
       | .ok m => .ok (n + m))

/-- Function `load_data` from `etl_pipeline.py` (lines 193-262).  Returns the
trace of database events and either the logged summary
`(inserted, skipped)` — `none` models the bare `return` on empty input —
or the re-raised exception.  `skipped` is the Python subtraction
`len(records) - inserted`, an `Int`. -/
def load_data (df : DF) (env : LoadEnv) :
    List DBEvent × Except String (Option (Int × Int)) :=
  if df.isEmptyDF then ([], .ok none)
  else if ¬ env.connectOk then ([.connect], .error "connection failed")
  else
    let records := df.rows
    let br := runBatches env 0 (chunks 100 records)
    match br.2 with
    | .error e =>
      (.connect :: br.1 ++ [.rollback, .closeCursor, .closeConn], .error e)
    | .ok inserted =>
      if env.commitOk then
        (.connect :: br.1 ++ [.commit, .closeCursor, .closeConn],
         .ok (some ((inserted : Int), (records.length : Int) - (inserted : Int))))
      else
        (.connect :: br.1 ++ [.rollback, .closeCursor, .closeConn],
         .error "commit failed")

/-- Transactional store semantics: executed batches are staged inside the
open transaction; `commit` makes the staged rows durable; `rollback`
discards them. -/
structure Store where
  durable : List (List Value)
  staged : List (List Value)
deriving DecidableEq, Repr

/-- Effect of one database event on the store. -/
def stepStore (st : Store) : DBEvent → Store
  | .executeBatch rows => ⟨st.durable, st.staged ++ rows⟩
  | .commit => ⟨st.durable ++ st.staged, []⟩
  | .rollback => ⟨st.durable, []⟩
  | _ => st

/-- Effect of a whole event trace on the store. -/
def applyEvents (st : Store) (evs : List DBEvent) : Store :=
  evs.foldl stepStore st

/-! ### The declared schema and the insert's conflict clause -/

/-- One column of a `CREATE TABLE` declaration. -/
structure ColumnDef where
  name : String
  sqlType : String
  notNull : Bool
  primaryKey : Bool
deriving DecidableEq, Repr

/-- The `user_interactions` table exactly as `create_database_schema`
declares it (lines 274-298). -/
def user_interactions_schema : List ColumnDef :=
  [⟨"interaction_id", "VARCHAR(255)", false, true⟩,
   ⟨"user_id", "VARCHAR(255)", true, false⟩,
   ⟨"session_id", "VARCHAR(255)", true, false⟩,
   ⟨"timestamp", "TIMESTAMP", true, false⟩,
   ⟨"page_url", "TEXT", true, false⟩,
   ⟨"action", "VARCHAR(50)", true, false⟩,
   ⟨"device_type", "VARCHAR(50)", false, false⟩,
   ⟨"referrer", "TEXT", false, false⟩,
   ⟨"event_date", "DATE", true, false⟩,
   ⟨"event_time", "TIME", true, false⟩,
   ⟨"event_hour", "TEXT", false, false⟩,
   ⟨"event_day", "TEXT", false, false⟩,
   ⟨"event_month", "TEXT", false, false⟩,
   ⟨"event_year", "TEXT", false, false⟩,
   ⟨"event_dayofweek", "TEXT", false, false⟩,
   ⟨"is_weekend", "BOOLEAN", false, false⟩,
   ⟨"content_category", "VARCHAR(100)", false, false⟩,
   ⟨"article_id", "VARCHAR(100)", false, false⟩,
   ⟨"referrer_category", "VARCHAR(50)", false, false⟩,
   ⟨"time_spent_seconds", "TEXT", false, false⟩,
   ⟨"scroll_depth", "TEXT", false, false⟩]

/-- The column sets on which the declared schema enforces uniqueness: a
column-level `PRIMARY KEY` declares that single column as a key, and the
declaration carries no table-level `PRIMARY KEY` or `UNIQUE`
constraints. -/
def schemaUniqueKeySets (schema : List ColumnDef) : List (List String) :=
  (schema.filter (fun c => c.primaryKey)).map (fun c => [c.name])

/-- The conflict target of the `INSERT` statement built at lines 215-219:
`ON CONFLICT (interaction_id, event_date) DO NOTHING`. -/
def insertConflictTarget : List String :=
  ["interaction_id", "event_date"]

/-- The conflict action of the insert statement. -/
def insertConflictAction : String := "DO NOTHING"

/-! ### The orchestrator -/

/-- The pipeline steps in source order (partition check/creation, schema
creation, extract, transform, load). -/
inductive Step where
  | partitionCheck
  | schemaCreate
  | extract
  | transform
  | load
deriving DecidableEq, Repr

/-- Terminal state of one `run_etl_pipeline` call. -/
inductive PipeResult where
  | loaded
  | completedEmpty
  | failed
deriving DecidableEq, Repr

/-- Environment for `create_database_schema` (lines 265-318): connection
then DDL execution then commit, any failure re-raised. -/
structure SchemaEnv where
  connectOk : Bool
  ddlRes : Except String Unit
  commitOk : Bool

/-- The `create_database_schema` outcome under its environment. -/
def create_database_schema (env : SchemaEnv) : Except String Unit :=
  if ¬ env.connectOk then .error "connection failed"
  else match env.ddlRes with
    | .error e => .error e
    | .ok _ => if env.commitOk then .ok () else .error "commit failed"

/-- Environment for one orchestrator run: the outcomes of the partition
bookkeeping queries, of schema creation, and of the load stage. -/
structure PipeEnv where
  connectOk : Bool
  partExists : Except String Bool
  partCreate : Except String Unit
  schema : SchemaEnv
  load : LoadEnv

/-- The body of `run_etl_pipeline`'s `try` block (lines 330-372): the
sequence of steps attempted, and either the terminal state or the first
exception. -/
def run_etl_body (env : PipeEnv) (files : List String) :
    List Step × Except String PipeResult :=
  if ¬ env.connectOk then ([.partitionCheck], .error "connection failed")
  else match env.partExists with
  | .error e => ([.partitionCheck], .error e)
  | .ok exists_ =>
    match (if exists_ then .ok () else env.partCreate : Except String Unit) with
    | .error e => ([.partitionCheck], .error e)
    | .ok _ =>
      match create_database_schema env.schema with
      | .error e => ([.partitionCheck, .schemaCreate], .error e)
      | .ok _ =>
        let raw := extract_data files
        if raw.isEmptyDF then
          ([.partitionCheck, .schemaCreate, .extract], .ok .completedEmpty)
        else
          match transform_data raw with
          | .error e =>
            ([.partitionCheck, .schemaCreate, .extract, .transform], .error e)
          | .ok td =>
            match (load_data td env.load).2 with
            | .error e =>
              ([.partitionCheck, .schemaCreate, .extract, .transform, .load],
               .error e)
            | .ok _ =>
              ([.partitionCheck, .schemaCreate, .extract, .transform, .load],
               .ok .loaded)

/-- Function `run_etl_pipeline` from `etl_pipeline.py` (lines 321-375): the
`except` clause at lines 374-375 logs and swallows every exception, so
the call always returns a terminal state, `FAILED` when the body
raised. -/
def run_etl_pipeline (env : PipeEnv) (files : List String) :
    List Step × PipeResult :=
  let body := run_etl_body env files
  (body.1,
   match body.2 with
   | .ok s => s
   | .error _ => .failed)

/-! ### The specification's classification rules, as written

Two renderings of §4.2's `referrer_category` table, used to compare the
spec sentence against `categorize_referrer`: the rules in priority order
(first match wins), applied once to the lower-cased referrer (the
claim's wording) and once to the referrer as stored (the behaviour of
the source, where classification precedes the lower-casing pass). -/

/-- Spec rules 2-5 of section 4.2 in priority order: substring pools and categories. -/
def refRules : List (List String × String) :=
  [(["google"], "search"),
   (["facebook", "twitter", "instagram", "social"], "social"),
   (["news", "nytimes", "cnn"], "news"),
   (["email", "newsletter"], "email")]

/-- First rule whose substring pool matches, else `"other"`. -/
def firstRule (r : String) : List (List String × String) → String
  | [] => "other"
  | (pats, cat) :: rest =>
    if pats.any (fun p => strContains r p) then cat else firstRule r rest

/-- The claim's classifier: rules applied to the lower-cased referrer. -/
def refCatSpecLower (r : String) : String :=
  if r = "" then "direct" else firstRule (pyLower r) refRules

/-- The amended classifier: the same rules in the same priority order,
applied to the referrer string as stored (no prior lower-casing). -/
def refCatSpecRaw (r : String) : String :=
  if r = "" then "direct" else firstRule r refRules

/-! ### The specification's synthesized-id format -/

/-- The spec's synthesized-id format (sections 3 and 8) `{user_id}_{session_id}_{unix_timestamp}`
for one record, as the spec writes it. -/
def synthSpec (u s : Value) (t : Int) : Value :=
  .str (pyStr u ++ "_" ++ pyStr s ++ "_" ++ toString t)

/-! ### Concrete record sets used as witnesses and counterexamples -/

/-- A valid timestamp used by the concrete record sets. -/
def tsOK : String := "2025-03-01T10:00:00Z"

/-- The spec's §8 identity-synthesis example record (epoch 1700000000). -/
def recC4 : Record :=
  [("user_id", .str "u1"), ("session_id", .str "s1"),
   ("timestamp", .str "2023-11-14T22:13:20Z"),
   ("page_url", .str "https://news.example.com/sports/article-42"),
   ("referrer", .str "")]

def dfC4 : DF := dfFromRecords [recC4]

/-- Result of `transform_data dfC4`, written out. -/
def dfC4out : DF :=
  ⟨["user_id", "session_id", "timestamp", "page_url", "referrer", "event_date",
    "event_time", "event_hour", "event_day", "event_month", "event_year",
    "event_dayofweek", "is_weekend", "content_category", "article_id",
    "referrer_category", "interaction_id"],
   [[.str "u1", .str "s1", .time 1700000000,
     .str "https://news.example.com/sports/article-42", .str "",
     .str "2023-11-14", .str "22:13:20", .int 22, .int 14, .int 11, .int 2023,
     .int 1, .bool false, .str "sports", .str "42", .str "direct",
     .str "u1_s1_1700000000"]]⟩

/-- Mixed-presence record set: one record carries `interaction_id`, two do
not. -/
def recC2a : Record :=
  [("user_id", .str "u1"), ("session_id", .str "s1"), ("timestamp", .str tsOK),
   ("page_url", .str "x"), ("referrer", .str ""), ("interaction_id", .str "a")]

def recC2b : Record :=
  [("user_id", .str "u2"), ("session_id", .str "s2"), ("timestamp", .str tsOK),
   ("page_url", .str "x"), ("referrer", .str "")]

def recC2c : Record :=
  [("user_id", .str "u3"), ("session_id", .str "s3"), ("timestamp", .str tsOK),
   ("page_url", .str "x"), ("referrer", .str "")]

def dfC2 : DF := dfFromRecords [recC2a, recC2b, recC2c]

/-- Result of `transform_data dfC2`, written out: the two records lacking
`interaction_id` both end up with the string `"nan"` there. -/
def dfC2out : DF :=
  ⟨["user_id", "session_id", "timestamp", "page_url", "referrer",
    "interaction_id", "event_date", "event_time", "event_hour", "event_day",
    "event_month", "event_year", "event_dayofweek", "is_weekend",
    "content_category", "article_id", "referrer_category"],
   [[.str "u1", .str "s1", .time 1740823200, .str "x", .str "", .str "a",
     .str "2025-03-01", .str "10:00:00", .int 10, .int 1, .int 3, .int 2025,
     .int 5, .bool true, .str "unknown", .str "unknown", .str "direct"],
    [.str "u2", .str "s2", .time 1740823200, .str "x", .str "", .str "nan",
     .str "2025-03-01", .str "10:00:00", .int 10, .int 1, .int 3, .int 2025,
     .int 5, .bool true, .str "unknown", .str "unknown", .str "direct"],
    [.str "u3", .str "s3", .time 1740823200, .str "x", .str "", .str "nan",
     .str "2025-03-01", .str "10:00:00", .int 10, .int 1, .int 3, .int 2025,
     .int 5, .bool true, .str "unknown", .str "unknown", .str "direct"]]⟩

/-- A record whose referrer contains upper-case `"GOOGLE"`. -/
def recC3 : Record :=
  [("user_id", .str "u1"), ("session_id", .str "s1"), ("timestamp", .str tsOK),
   ("page_url", .str "x"), ("referrer", .str "GOOGLE")]

def dfC3 : DF := dfFromRecords [recC3]

/-- Result of `transform_data dfC3`, written out: the category is `"other"` even
though the lower-cased referrer contains `"google"`. -/
def dfC3out : DF :=
  ⟨["user_id", "session_id", "timestamp", "page_url", "referrer", "event_date",
    "event_time", "event_hour", "event_day", "event_month", "event_year",
    "event_dayofweek", "is_weekend", "content_category", "article_id",
    "referrer_category", "interaction_id"],
   [[.str "u1", .str "s1", .time 1740823200, .str "x", .str "google",
     .str "2025-03-01", .str "10:00:00", .int 10, .int 1, .int 3, .int 2025,
     .int 5, .bool true, .str "unknown", .str "unknown", .str "other",
     .str "u1_s1_1740823200"]]⟩

/-- Two records, one carrying `device_type`, one without it. -/
def recC10a : Record :=
  [("user_id", .str "u1"), ("session_id", .str "s1"), ("timestamp", .str tsOK),
   ("page_url", .str "x"), ("referrer", .str ""), ("device_type", .str "Mobile")]

def recC10b : Record :=
  [("user_id", .str "u2"), ("session_id", .str "s2"), ("timestamp", .str tsOK),
   ("page_url", .str "x"), ("referrer", .str "")]

def dfC10 : DF := dfFromRecords [recC10a, recC10b]

/-- Result of `transform_data dfC10`, written out: the record without `device_type`
gets the literal string `"nan"` there. -/
def dfC10out : DF :=
  ⟨["user_id", "session_id", "timestamp", "page_url", "referrer",
    "device_type", "event_date", "event_time", "event_hour", "event_day",
    "event_month", "event_year", "event_dayofweek", "is_weekend",
    "content_category", "article_id", "referrer_category", "interaction_id"],
   [[.str "u1", .str "s1", .time 1740823200, .str "x", .str "", .str "mobile",
     .str "2025-03-01", .str "10:00:00", .int 10, .int 1, .int 3, .int 2025,
     .int 5, .bool true, .str "unknown", .str "unknown", .str "direct",
     .str "u1_s1_1740823200"],
    [.str "u2", .str "s2", .time 1740823200, .str "x", .str "", .str "nan",
     .str "2025-03-01", .str "10:00:00", .int 10, .int 1, .int 3, .int 2025,
     .int 5, .bool true, .str "unknown", .str "unknown", .str "direct",
     .str "u2_s2_1740823200"]]⟩

/-- A well-formed array-JSON file. -/
def fileGood : String := "[\x7b\"user_id\": \"u1\", \"n\": 3\x7d]"

/-- A syntactically invalid file. -/
def fileBad : String := "["

/-! ### Assignment-sequence and environment helpers -/

/-- Fold of `DF.setCol` over an assignment list, used to reason about the
run of derived-column writes inside `transform_data`. -/
def setCols (df : DF) : List (String × List Value) → DF
  | [] => df
  | (c, vs) :: rest => setCols (df.setCol c vs) rest

/-- The twelve derived-column assignments of `transform_data`, in source
order, as functions of the parsed timestamps and the computed URL /
referrer columns. -/
def derivedAssignments (ts : List Int) (cats aids rcats : List Value) :
    List (String × List Value) :=
  [("timestamp", ts.map Value.time),
   ("event_date", (ts.map (fun t => Int.fdiv t 86400)).map Value.date),
   ("event_time", ts.map (fun t => Value.timeOfDay (Int.emod t 86400))),
   ("event_hour", ts.map (fun t => Value.int (Int.fdiv (Int.emod t 86400) 3600))),
   ("event_day", (ts.map (fun t => Int.fdiv t 86400)).map
      (fun d => Value.int (civilFromDays d).2.2)),
   ("event_month", (ts.map (fun t => Int.fdiv t 86400)).map
      (fun d => Value.int (civilFromDays d).2.1)),
   ("event_year", (ts.map (fun t => Int.fdiv t 86400)).map
      (fun d => Value.int (civilFromDays d).1)),
   ("event_dayofweek", ((ts.map (fun t => Int.fdiv t 86400)).map
      (fun d => Int.emod (d + 3) 7)).map Value.int),
   ("is_weekend", ((ts.map (fun t => Int.fdiv t 86400)).map
      (fun d => Int.emod (d + 3) 7)).map (fun w => Value.bool (w == 5 || w == 6))),
   ("content_category", cats),
   ("article_id", aids),
   ("referrer_category", rcats)]

/-- The first nine derived-column assignments (those preceding the
`page_url` read in `transform_data`). -/
def derivedAssignments9 (ts : List Int) : List (String × List Value) :=
  [("timestamp", ts.map Value.time),
   ("event_date", (ts.map (fun t => Int.fdiv t 86400)).map Value.date),
   ("event_time", ts.map (fun t => Value.timeOfDay (Int.emod t 86400))),
   ("event_hour", ts.map (fun t => Value.int (Int.fdiv (Int.emod t 86400) 3600))),
   ("event_day", (ts.map (fun t => Int.fdiv t 86400)).map
      (fun d => Value.int (civilFromDays d).2.2)),
   ("event_month", (ts.map (fun t => Int.fdiv t 86400)).map
      (fun d => Value.int (civilFromDays d).2.1)),
   ("event_year", (ts.map (fun t => Int.fdiv t 86400)).map
      (fun d => Value.int (civilFromDays d).1)),
   ("event_dayofweek", ((ts.map (fun t => Int.fdiv t 86400)).map
      (fun d => Int.emod (d + 3) 7)).map Value.int),
   ("is_weekend", ((ts.map (fun t => Int.fdiv t 86400)).map
      (fun d => Int.emod (d + 3) 7)).map (fun w => Value.bool (w == 5 || w == 6)))]

/-- The first eleven derived-column assignments (those preceding the
`referrer` read in `transform_data`). -/
def derivedAssignments11 (ts : List Int) (cats aids : List Value) :
    List (String × List Value) :=
  derivedAssignments9 ts ++ [("content_category", cats), ("article_id", aids)]

/-- A load environment where every round-trip succeeds and each batch
reports rowcount 1. -/
def envOK : LoadEnv := ⟨true, fun _ => .ok 1, true⟩

/-- A load environment whose first batch raises. -/
def envBad : LoadEnv := ⟨true, fun _ => .error "insert failed", true⟩

/-- A pipeline environment whose schema-creation step raises. -/
def pipeEnvFail : PipeEnv :=
  ⟨true, .ok true, .ok (), ⟨true, .error "ddl failed", true⟩, envOK⟩

/-! ## Lemmas and theorems -/

/-! ### `exMap` -/

theorem exMap_ok_length {f : α → Except String β} :
    ∀ {xs : List α} {ys : List β}, exMap f xs = .ok ys → ys.length = xs.length := by
  intro xs
  induction xs with
  | nil => intro ys h; simp [exMap] at h; simp [← h]
  | cons a as ih =>
    intro ys h
    simp only [exMap] at h
    cases hfa : f a with
    | error e => rw [hfa] at h; exact absurd h (by simp)
    | ok b =>
      rw [hfa] at h
      cases hrest : exMap f as with
      | error e => rw [hrest] at h; exact absurd h (by simp)
      | ok bs =>
        rw [hrest] at h
        cases h
        simp [ih hrest]

theorem exMap_ok_forall₂ {f : α → Except String β} :
    ∀ {xs : List α} {ys : List β}, exMap f xs = .ok ys →
      List.Forall₂ (fun x y => f x = .ok y) xs ys := by
  intro xs
  induction xs with
  | nil => intro ys h; simp [exMap] at h; simp [← h]
  | cons a as ih =>
    intro ys h
    simp only [exMap] at h
    cases hfa : f a with
    | error e => rw [hfa] at h; exact absurd h (by simp)
    | ok b =>
      rw [hfa] at h
      cases hrest : exMap f as with
      | error e => rw [hrest] at h; exact absurd h (by simp)
      | ok bs =>
        rw [hrest] at h
        cases h
        exact List.Forall₂.cons hfa (ih hrest)

theorem exMap_map_ok {f : α → Except String β} {g : α → β} :
    ∀ {xs : List α}, (∀ x ∈ xs, f x = .ok (g x)) → exMap f xs = .ok (xs.map g) := by
  intro xs
  induction xs with
  | nil => intro _; simp [exMap]
  | cons a as ih =>
    intro h
    simp only [exMap, h a (by simp)]
    rw [ih (fun x hx => h x (by simp [hx]))]
    simp

/-! ### `idxOf?` -/

theorem idxOf?_eq_none_iff {l : List String} {x : String} :
    idxOf? l x = none ↔ x ∉ l := by
  induction l with
  | nil => simp [idxOf?]
  | cons c cs ih =>
    by_cases hc : c = x
    · simp [idxOf?, hc]
    · simp only [idxOf?, if_neg hc]
      cases h : idxOf? cs x with
      | none => simp [h, ih.mp h, Ne.symm hc]
      | some i =>
        have hmem : x ∈ cs := by
          by_contra hx
          rw [ih.mpr hx] at h
          exact absurd h (by simp)
        simp [hc, hmem]

theorem idxOf?_lt_length {l : List String} {x : String} {i : Nat} :
    idxOf? l x = some i → i < l.length := by
  induction l generalizing i with
  | nil => simp [idxOf?]
  | cons c cs ih =>
    by_cases hc : c = x
    · simp [idxOf?, hc]; omega
    · simp only [idxOf?, if_neg hc]
      cases h : idxOf? cs x with
      | none => intro hcontra; exact absurd hcontra (by simp)
      | some j =>
        intro hj
        have hj' : j + 1 = i := by simpa using hj
        have := ih h
        simp [← hj']
        omega

theorem idxOf?_append_self {l : List String} {c : String} (h : c ∉ l) :
    idxOf? (l ++ [c]) c = some l.length := by
  induction l with
  | nil => simp [idxOf?]
  | cons a as ih =>
    have ha : a ≠ c := fun hac => h (by simp [hac])
    simp [idxOf?, ha, ih (fun hm => h (by simp [hm]))]

theorem idxOf?_append_ne {l : List String} {c c' : String} (h : c' ≠ c) :
    idxOf? (l ++ [c]) c' = idxOf? l c' := by
  induction l with
  | nil => simp [idxOf?, Ne.symm h]
  | cons a as ih => simp [idxOf?, ih]

/-! ### `getD` over `set`, append and the lower-casing `zipWith` -/

theorem getD_set_self {r : List Value} {i : Nat} {v d : Value} (h : i < r.length) :
    (r.set i v).getD i d = v := by
  induction r generalizing i with
  | nil => simp at h
  | cons a as ih =>
    cases i with
    | zero => simp
    | succ j => simpa using ih (by simpa using h)

theorem getD_set_ne {r : List Value} {i j : Nat} {v d : Value} (h : j ≠ i) :
    (r.set i v).getD j d = r.getD j d := by
  induction r generalizing i j with
  | nil => simp
  | cons a as ih =>
    cases i with
    | zero => cases j with
      | zero => exact absurd rfl h
      | succ k => simp
    | succ i' => cases j with
      | zero => simp
      | succ k => simpa using ih (by omega)

theorem getD_append_right_self {r : List Value} {v d : Value} :
    (r ++ [v]).getD r.length d = v := by
  induction r with
  | nil => simp
  | cons a as ih => simp [ih]

theorem getD_append_lt {r : List Value} {v d : Value} {i : Nat} (h : i < r.length) :
    (r ++ [v]).getD i d = r.getD i d := by
  induction r generalizing i with
  | nil => simp at h
  | cons a as ih =>
    cases i with
    | zero => simp
    | succ j => simpa using ih (by simpa using h)

theorem getD_zipWith_ite {flags : List Bool} {r : List Value} {i : Nat} {d : Value}
    (h1 : i < flags.length) (h2 : i < r.length) :
    (List.zipWith (fun b v => if b then stringifyLower v else v) flags r).getD i d =
      if flags.getD i false then stringifyLower (r.getD i d) else r.getD i d := by
  induction flags generalizing r i with
  | nil => simp at h1
  | cons b bs ih =>
    cases r with
    | nil => simp at h2
    | cons v vs =>
      cases i with
      | zero => simp
      | succ j => simpa using ih (by simpa using h1) (by simpa using h2)

theorem idxOf?_some_mem {l : List String} {x : String} {i : Nat}
    (h : idxOf? l x = some i) : x ∈ l := by
  by_contra hx
  rw [idxOf?_eq_none_iff.mpr hx] at h
  exact absurd h (by simp)

theorem idxOf?_getD {l : List String} {x : String} {i : Nat} :
    idxOf? l x = some i → l.getD i "" = x := by
  induction l generalizing i with
  | nil => simp [idxOf?]
  | cons c cs ih =>
    by_cases hc : c = x
    · simp only [idxOf?, if_pos hc]
      intro h
      cases h
      simpa using hc
    · simp only [idxOf?, if_neg hc]
      cases h : idxOf? cs x with
      | none => intro hcontra; exact absurd hcontra (by simp)
      | some j =>
        intro hj
        have hj' : j + 1 = i := by simpa using hj
        subst hj'
        simpa using ih h

theorem mem_zipWith {f : α → β → γ} {as : List α} {bs : List β} {c : γ} :
    c ∈ List.zipWith f as bs → ∃ a ∈ as, ∃ b ∈ bs, c = f a b := by
  induction as generalizing bs with
  | nil => simp
  | cons a as ih =>
    cases bs with
    | nil => simp
    | cons b bs =>
      intro hc
      rcases (by simpa using hc : c = f a b ∨ c ∈ List.zipWith f as bs) with h | h
      · exact ⟨a, by simp, b, by simp, h⟩
      · rcases ih h with ⟨a', ha', b', hb', hcb⟩
        exact ⟨a', by simp [ha'], b', by simp [hb'], hcb⟩

theorem map_getD_zipWith_set_self {rows : List (List Value)} {vs : List Value} {i : Nat}
    (hlen : vs.length = rows.length) (hwf : ∀ r ∈ rows, i < r.length) :
    (List.zipWith (fun r v => r.set i v) rows vs).map (fun r => r.getD i Value.nan) = vs := by
  induction rows generalizing vs with
  | nil => cases vs with
    | nil => simp
    | cons b bs => simp at hlen
  | cons r rs ih =>
    cases vs with
    | nil => simp at hlen
    | cons b bs =>
      simp only [List.zipWith_cons_cons, List.map_cons]
      rw [getD_set_self (hwf r (by simp)), ih (by simpa using hlen)
        (fun r' hr' => hwf r' (by simp [hr']))]

theorem map_getD_zipWith_set_ne {rows : List (List Value)} {vs : List Value} {i j : Nat}
    (hlen : vs.length = rows.length) (hne : j ≠ i) :
    (List.zipWith (fun r v => r.set i v) rows vs).map (fun r => r.getD j Value.nan) =
      rows.map (fun r => r.getD j Value.nan) := by
  induction rows generalizing vs with
  | nil => simp
  | cons r rs ih =>
    cases vs with
    | nil => simp at hlen
    | cons b bs =>
      simp only [List.zipWith_cons_cons, List.map_cons]
      rw [getD_set_ne hne, ih (by simpa using hlen)]

theorem map_getD_zipWith_append_self {rows : List (List Value)} {vs : List Value} {L : Nat}
    (hlen : vs.length = rows.length) (hwf : ∀ r ∈ rows, r.length = L) :
    (List.zipWith (fun r v => r ++ [v]) rows vs).map (fun r => r.getD L Value.nan) = vs := by
  induction rows generalizing vs with
  | nil => cases vs with
    | nil => simp
    | cons b bs => simp at hlen
  | cons r rs ih =>
    cases vs with
    | nil => simp at hlen
    | cons b bs =>
      simp only [List.zipWith_cons_cons, List.map_cons]
      have hr : r.length = L := hwf r (by simp)
      have hhead : (r ++ [b]).getD L Value.nan = b := by
        rw [← hr]; exact getD_append_right_self
      rw [hhead, ih (by simpa using hlen) (fun r' hr' => hwf r' (by simp [hr']))]

theorem map_getD_zipWith_append_lt {rows : List (List Value)} {vs : List Value} {L j : Nat}
    (hlen : vs.length = rows.length) (hwf : ∀ r ∈ rows, r.length = L) (hj : j < L) :
    (List.zipWith (fun r v => r ++ [v]) rows vs).map (fun r => r.getD j Value.nan) =
      rows.map (fun r => r.getD j Value.nan) := by
  induction rows generalizing vs with
  | nil => simp
  | cons r rs ih =>
    cases vs with
    | nil => simp at hlen
    | cons b bs =>
      simp only [List.zipWith_cons_cons, List.map_cons]
      rw [getD_append_lt (by rw [hwf r (by simp)]; exact hj),
        ih (by simpa using hlen) (fun r' hr' => hwf r' (by simp [hr']))]

/-! ### DataFrame operation lemmas -/

theorem colE_ok_iff {df : DF} {c : String} {vs : List Value} :
    df.colE c = .ok vs ↔ df.getCol? c = some vs := by
  unfold DF.colE
  cases h : df.getCol? c <;> simp

theorem getCol?_length {df : DF} {c : String} {vs : List Value}
    (h : df.getCol? c = some vs) : vs.length = df.rows.length := by
  unfold DF.getCol? at h
  cases hi : idxOf? df.cols c with
  | none => rw [hi] at h; exact absurd h (by simp)
  | some i => rw [hi] at h; simp at h; simp [← h]

theorem setCol_cols_mem {df : DF} {c c' : String} {vs : List Value} :
    c' ∈ (df.setCol c vs).cols ↔ c' = c ∨ c' ∈ df.cols := by
  unfold DF.setCol
  cases hi : idxOf? df.cols c with
  | none => simp [or_comm]
  | some i =>
    have hmem := idxOf?_some_mem hi
    simp only []
    constructor
    · intro h; exact Or.inr h
    · intro h
      cases h with
      | inl h => rw [h]; exact hmem
      | inr h => exact h

theorem setCol_rows_length {df : DF} (c : String) {vs : List Value}
    (h : vs.length = df.rows.length) :
    (df.setCol c vs).rows.length = df.rows.length := by
  unfold DF.setCol
  cases idxOf? df.cols c <;> simp [h]

theorem setCol_wf {df : DF} {c : String} {vs : List Value}
    (hwf : df.wf) (h : vs.length = df.rows.length) : (df.setCol c vs).wf := by
  unfold DF.setCol
  cases idxOf? df.cols c with
  | none =>
    intro r hr
    rcases mem_zipWith hr with ⟨a, ha, b, _, rfl⟩
    simp [hwf a ha]
  | some i =>
    intro r hr
    rcases mem_zipWith hr with ⟨a, ha, b, _, rfl⟩
    simp [hwf a ha]

theorem getCol?_setCol_self {df : DF} {c : String} {vs : List Value}
    (hwf : df.wf) (h : vs.length = df.rows.length) :
    (df.setCol c vs).getCol? c = some vs := by
  unfold DF.setCol
  cases hi : idxOf? df.cols c with
  | none =>
    have hnm : c ∉ df.cols := idxOf?_eq_none_iff.mp hi
    unfold DF.getCol?
    rw [idxOf?_append_self hnm]
    exact congrArg some (map_getD_zipWith_append_self h hwf)
  | some i =>
    unfold DF.getCol?
    rw [hi]
    exact congrArg some (map_getD_zipWith_set_self h
      (fun r hr => by rw [hwf r hr]; exact idxOf?_lt_length hi))

theorem getCol?_setCol_ne {df : DF} {c c' : String} {vs : List Value}
    (hwf : df.wf) (h : vs.length = df.rows.length) (hne : c' ≠ c) :
    (df.setCol c vs).getCol? c' = df.getCol? c' := by
  unfold DF.setCol
  cases hi : idxOf? df.cols c with
  | none =>
    unfold DF.getCol?
    simp only [idxOf?_append_ne hne]
    cases hj : idxOf? df.cols c' with
    | none => rfl
    | some j =>
      exact congrArg some (map_getD_zipWith_append_lt h hwf (idxOf?_lt_length hj))
  | some i =>
    unfold DF.getCol?
    cases hj : idxOf? df.cols c' with
    | none => rfl
    | some j =>
      have hji : j ≠ i := by
        intro hji
        subst hji
        exact hne ((idxOf?_getD hj).symm.trans (idxOf?_getD hi))
      exact congrArg some (map_getD_zipWith_set_ne h hji)

/-! ### Lower-casing pass lemmas -/

theorem lower_cols (df : DF) : (lowerStringCols df).cols = df.cols := rfl

theorem lower_rows_length (df : DF) :
    (lowerStringCols df).rows.length = df.rows.length := by
  simp [lowerStringCols]

theorem lower_wf {df : DF} (hwf : df.wf) : (lowerStringCols df).wf := by
  intro r hr
  simp only [lowerStringCols, List.mem_map] at hr
  rcases hr with ⟨r0, hr0, rfl⟩
  simp only [lowerStringCols, List.length_zipWith, List.length_map,
    List.length_range]
  rw [hwf r0 hr0]
  simp

theorem getD_range_map {g : Nat → Bool} {n i : Nat} {d : Bool} (h : i < n) :
    (((List.range n).map g).getD i d) = g i := by
  rw [List.getD_eq_getElem?_getD, List.getElem?_map, List.getElem?_range h]
  rfl

theorem getCol?_lower {df : DF} {c : String} (hwf : df.wf) :
    (lowerStringCols df).getCol? c =
      (df.getCol? c).map
        (fun vs => if colConverted vs then vs.map stringifyLower else vs) := by
  unfold DF.getCol? lowerStringCols
  cases hi : idxOf? df.cols c with
  | none => rfl
  | some i =>
    have hilt : i < df.cols.length := idxOf?_lt_length hi
    simp only [Option.map_map]
    refine congrArg some ?_
    simp only [Function.comp_apply, List.map_map, Function.comp_def]
    have hpoint : ∀ r ∈ df.rows,
        (List.zipWith (fun b v => if b then stringifyLower v else v)
          ((List.range df.cols.length).map
            (fun j => colConverted (df.rows.map (fun r => r.getD j Value.nan)))) r).getD i Value.nan =
        if colConverted (df.rows.map (fun r => r.getD i Value.nan)) then
          stringifyLower (r.getD i Value.nan)
        else r.getD i Value.nan := by
      intro r hr
      rw [getD_zipWith_ite (by simpa using hilt) (by rw [hwf r hr]; exact hilt),
        getD_range_map hilt]
    rw [List.map_congr_left hpoint]
    cases hcv : colConverted (df.rows.map (fun r => r.getD i Value.nan)) <;> simp

/-! ### Sequences of column assignments -/

theorem derivedAssignments_names {ts : List Int} {cats aids rcats : List Value} :
    (derivedAssignments ts cats aids rcats).map Prod.fst = derivedCols := rfl

theorem setCols_append {df : DF} {ps qs : List (String × List Value)} :
    setCols df (ps ++ qs) = setCols (setCols df ps) qs := by
  induction ps generalizing df with
  | nil => rfl
  | cons p ps ih => cases p; simp [setCols, ih]

theorem setCols_rows_length {df : DF} :
    ∀ {ps : List (String × List Value)},
      (∀ p ∈ ps, (Prod.snd p).length = df.rows.length) →
      (setCols df ps).rows.length = df.rows.length := by
  intro ps
  induction ps generalizing df with
  | nil => intro _; rfl
  | cons p ps ih =>
    intro h
    cases p with
    | mk c vs =>
      have h1 : vs.length = df.rows.length := h (c, vs) (by simp)
      have h2 := setCol_rows_length c h1
      simp only [setCols]
      rw [ih (fun q hq => by rw [h2]; exact h q (by simp [hq]))]
      exact h2

theorem setCols_wf {df : DF} :
    ∀ {ps : List (String × List Value)}, df.wf →
      (∀ p ∈ ps, (Prod.snd p).length = df.rows.length) →
      (setCols df ps).wf := by
  intro ps
  induction ps generalizing df with
  | nil => intro hwf _; exact hwf
  | cons p ps ih =>
    intro hwf h
    cases p with
    | mk c vs =>
      have h1 : vs.length = df.rows.length := h (c, vs) (by simp)
      have h2 := setCol_rows_length c h1
      exact ih (setCol_wf hwf h1) (fun q hq => by rw [h2]; exact h q (by simp [hq]))

theorem setCols_cols_mem (df : DF) (c : String) :
    ∀ ps : List (String × List Value),
      (c ∈ (setCols df ps).cols ↔ c ∈ df.cols ∨ c ∈ ps.map Prod.fst) := by
  intro ps
  induction ps generalizing df with
  | nil => simp [setCols]
  | cons p ps ih =>
    cases p with
    | mk c' vs =>
      simp only [setCols, List.map_cons, List.mem_cons]
      rw [ih]
      simp [setCol_cols_mem]
      tauto

theorem setCols_getCol?_not_mem {df : DF} {c : String} :
    ∀ {ps : List (String × List Value)}, df.wf →
      (∀ p ∈ ps, (Prod.snd p).length = df.rows.length) →
      c ∉ ps.map Prod.fst →
      (setCols df ps).getCol? c = df.getCol? c := by
  intro ps
  induction ps generalizing df with
  | nil => intro _ _ _; rfl
  | cons p ps ih =>
    intro hwf h hc
    cases p with
    | mk c' vs =>
      have hcc' : c ≠ c' := fun hx => hc (by simp [hx])
      have h1 : vs.length = df.rows.length := h (c', vs) (by simp)
      have h2 := setCol_rows_length c' h1
      simp only [setCols]
      rw [ih (setCol_wf hwf h1)
        (fun q hq => by rw [h2]; exact h q (by simp [hq]))
        (fun hx => hc (by simp at hx ⊢; exact Or.inr hx))]
      exact getCol?_setCol_ne hwf h1 hcc'

/-! ### Destructuring successful `enrich` runs -/

theorem except_bind_ok {e : Except String α} {k : α → Except String β} {b : β}
    (h : (e >>= k) = .ok b) : ∃ a, e = .ok a ∧ k a = .ok b := by
  cases e with
  | error e' => simp [Bind.bind, Except.bind] at h
  | ok a => exact ⟨a, rfl, by simpa [Bind.bind, Except.bind] using h⟩

theorem colConverted_map_time {ts : List Int} :
    colConverted (ts.map Value.time) = false := by
  simp [colConverted, List.any_map, Function.comp_def, Value.isStrLike]

theorem derivedAssignments_lengths {ts : List Int} {cats aids rcats : List Value}
    {n : Nat} (hts : ts.length = n) (hc : cats.length = n) (ha : aids.length = n)
    (hr : rcats.length = n) :
    ∀ p ∈ derivedAssignments ts cats aids rcats, (Prod.snd p).length = n := by
  intro p hp
  simp only [derivedAssignments, List.mem_cons, List.not_mem_nil, or_false] at hp
  rcases hp with rfl | rfl | rfl | rfl | rfl | rfl | rfl | rfl | rfl | rfl | rfl | rfl <;>
    simp [hts, hc, ha, hr]

theorem enrich_ok_destruct {df d : DF} (hwf : df.wf) (h : enrich df = .ok d) :
    ∃ (tsRaw : List Value) (ts : List Int) (urls cats aids refs rcats : List Value),
      df.getCol? "timestamp" = some tsRaw ∧
      exMap parseTsValue tsRaw = .ok ts ∧
      df.getCol? "page_url" = some urls ∧
      exMap catCell urls = .ok cats ∧
      exMap aidCell urls = .ok aids ∧
      df.getCol? "referrer" = some refs ∧
      exMap refCell refs = .ok rcats ∧
      d = lowerStringCols (setCols df (derivedAssignments ts cats aids rcats)) := by
  unfold enrich at h
  obtain ⟨tsRaw, h1, h⟩ := except_bind_ok h
  obtain ⟨ts, h2, h⟩ := except_bind_ok h
  obtain ⟨urls, h3, h⟩ := except_bind_ok h
  obtain ⟨cats, h4, h⟩ := except_bind_ok h
  obtain ⟨aids, h5, h⟩ := except_bind_ok h
  obtain ⟨refs, h6, h⟩ := except_bind_ok h
  obtain ⟨rcats, h7, h⟩ := except_bind_ok h
  have h1' : df.getCol? "timestamp" = some tsRaw := colE_ok_iff.mp h1
  have hts : ts.length = df.rows.length :=
    (exMap_ok_length h2).trans (getCol?_length h1')
  have hlen9 : ∀ p ∈ derivedAssignments9 ts, (Prod.snd p).length = df.rows.length := by
    intro p hp
    simp only [derivedAssignments9, List.mem_cons, List.not_mem_nil, or_false] at hp
    rcases hp with rfl | rfl | rfl | rfl | rfl | rfl | rfl | rfl | rfl <;> simp [hts]
  -- the page_url read happens after the first nine derived assignments
  have h3'' : (setCols df (derivedAssignments9 ts)).getCol? "page_url" = some urls := by
    simp only [setCols, derivedAssignments9]
    exact colE_ok_iff.mp h3
  have hurl : df.getCol? "page_url" = some urls := by
    rw [← setCols_getCol?_not_mem hwf hlen9 (by simp [derivedAssignments9])]
    exact h3''
  have hurls : urls.length = df.rows.length := by
    have := getCol?_length h3''
    rwa [setCols_rows_length hlen9] at this
  have hcats : cats.length = df.rows.length := (exMap_ok_length h4).trans hurls
  have haids : aids.length = df.rows.length := (exMap_ok_length h5).trans hurls
  have hlen11 : ∀ p ∈ derivedAssignments11 ts cats aids,
      (Prod.snd p).length = df.rows.length := by
    intro p hp
    simp only [derivedAssignments11, derivedAssignments9, List.mem_append,
      List.mem_cons, List.not_mem_nil, or_false] at hp
    rcases hp with (rfl | rfl | rfl | rfl | rfl | rfl | rfl | rfl | rfl) | (rfl | rfl) <;>
      simp [hts, hcats, haids]
  -- the referrer read happens after eleven derived assignments
  have h6'' : (setCols df (derivedAssignments11 ts cats aids)).getCol? "referrer"
      = some refs := by
    simp only [setCols, derivedAssignments11, derivedAssignments9, List.append_eq,
      List.cons_append, List.nil_append]
    exact colE_ok_iff.mp h6
  have href : df.getCol? "referrer" = some refs := by
    rw [← setCols_getCol?_not_mem hwf hlen11 (by simp [derivedAssignments11, derivedAssignments9])]
    exact h6''
  have hd : d = lowerStringCols (setCols df (derivedAssignments ts cats aids rcats)) := by
    simp only [setCols, derivedAssignments]
    exact (Except.ok.inj h).symm
  exact ⟨tsRaw, ts, urls, cats, aids, refs, rcats,
    h1', h2, hurl, h4, h5, href, h7, hd⟩

theorem setCols_getCol?_head {df : DF} {c : String} {vs : List Value}
    {rest : List (String × List Value)} (hwf : df.wf)
    (hvs : vs.length = df.rows.length)
    (hrest : ∀ p ∈ rest, (Prod.snd p).length = df.rows.length)
    (hc : c ∉ rest.map Prod.fst) :
    (setCols df ((c, vs) :: rest)).getCol? c = some vs := by
  simp only [setCols]
  rw [setCols_getCol?_not_mem (setCol_wf hwf hvs)
    (fun p hp => by rw [setCol_rows_length c hvs]; exact hrest p hp) hc]
  exact getCol?_setCol_self hwf hvs

theorem setCols_getCol?_last {df : DF} {c : String} {vs : List Value}
    {ps : List (String × List Value)} (hwf : df.wf)
    (hps : ∀ p ∈ ps, (Prod.snd p).length = df.rows.length)
    (hvs : vs.length = df.rows.length) :
    (setCols df (ps ++ [(c, vs)])).getCol? c = some vs := by
  rw [setCols_append]
  simp only [setCols]
  exact getCol?_setCol_self (setCols_wf hwf hps)
    (by rw [setCols_rows_length hps]; exact hvs)

theorem derivedAssignments_eq_append {ts : List Int} {cats aids rcats : List Value} :
    derivedAssignments ts cats aids rcats =
      derivedAssignments11 ts cats aids ++ [("referrer_category", rcats)] := rfl

theorem enrich_ok_spec {df d : DF} (hwf : df.wf) (h : enrich df = .ok d) :
    d.wf ∧
    d.rows.length = df.rows.length ∧
    (∀ c, c ∈ d.cols ↔ c ∈ df.cols ∨ c ∈ derivedCols) ∧
    (∀ c, c ∉ derivedCols →
      d.getCol? c = (df.getCol? c).map
        (fun vs => if colConverted vs then vs.map stringifyLower else vs)) ∧
    (∃ ts : List Int, ts.length = df.rows.length ∧
      d.getCol? "timestamp" = some (ts.map Value.time)) ∧
    (∃ refs rcats : List Value, df.getCol? "referrer" = some refs ∧
      exMap refCell refs = .ok rcats ∧
      d.getCol? "referrer_category" =
        some (if colConverted rcats then rcats.map stringifyLower else rcats)) := by
  obtain ⟨tsRaw, ts, urls, cats, aids, refs, rcats,
    h1, h2, h3, h4, h5, h6, h7, rfl⟩ := enrich_ok_destruct hwf h
  have hts : ts.length = df.rows.length :=
    (exMap_ok_length h2).trans (getCol?_length h1)
  have hurls : urls.length = df.rows.length := getCol?_length h3
  have hcats : cats.length = df.rows.length := (exMap_ok_length h4).trans hurls
  have haids : aids.length = df.rows.length := (exMap_ok_length h5).trans hurls
  have hrc : rcats.length = df.rows.length :=
    (exMap_ok_length h7).trans (getCol?_length h6)
  have hlens := derivedAssignments_lengths hts hcats haids hrc
  have hmidwf : (setCols df (derivedAssignments ts cats aids rcats)).wf :=
    setCols_wf hwf hlens
  have hmidlen : (setCols df (derivedAssignments ts cats aids rcats)).rows.length
      = df.rows.length := setCols_rows_length hlens
  refine ⟨lower_wf hmidwf, (lower_rows_length _).trans hmidlen, ?_, ?_, ?_, ?_⟩
  · intro c
    rw [lower_cols]
    have hm := setCols_cols_mem df c (derivedAssignments ts cats aids rcats)
    rwa [derivedAssignments_names] at hm
  · intro c hc
    rw [getCol?_lower hmidwf]
    rw [setCols_getCol?_not_mem hwf hlens (by rw [derivedAssignments_names]; exact hc)]
  · refine ⟨ts, hts, ?_⟩
    rw [getCol?_lower hmidwf]
    have hcons : derivedAssignments ts cats aids rcats =
        ("timestamp", List.map Value.time ts) ::
          (derivedAssignments ts cats aids rcats).tail := rfl
    have hhead : (setCols df (derivedAssignments ts cats aids rcats)).getCol?
        "timestamp" = some (ts.map Value.time) := by
      rw [hcons]
      refine setCols_getCol?_head hwf (by simp [hts]) ?_ ?_
      · intro p hp
        exact hlens p (by rw [hcons]; exact List.mem_cons_of_mem _ hp)
      · simp [derivedAssignments]
    rw [hhead]
    simp [colConverted_map_time]
  · refine ⟨refs, rcats, h6, h7, ?_⟩
    rw [getCol?_lower hmidwf]
    have hlast : (setCols df (derivedAssignments ts cats aids rcats)).getCol?
        "referrer_category" = some rcats := by
      rw [derivedAssignments_eq_append]
      refine setCols_getCol?_last hwf ?_ hrc
      intro p hp
      refine hlens p ?_
      rw [derivedAssignments_eq_append]
      exact List.mem_append_left _ hp
    rw [hlast]
    rfl

/-! ### `addInteractionId` and `transform_data` structure -/

theorem addInteractionId_mem {df d : DF} (hm : "interaction_id" ∈ df.cols)
    (h : addInteractionId df = .ok d) : d = df := by
  unfold addInteractionId at h
  rw [if_pos hm] at h
  exact (Except.ok.inj h).symm

theorem addInteractionId_not_mem {df d : DF} (hm : "interaction_id" ∉ df.cols)
    (h : addInteractionId df = .ok d) :
    ∃ (us ss tsv ids : List Value),
      df.getCol? "user_id" = some us ∧
      df.getCol? "session_id" = some ss ∧
      df.getCol? "timestamp" = some tsv ∧
      exMap (fun p : Value × Value × Value => synthIdCell p.1 p.2.1 p.2.2)
        (us.zip (ss.zip tsv)) = .ok ids ∧
      d = df.setCol "interaction_id" ids := by
  unfold addInteractionId at h
  rw [if_neg hm] at h
  obtain ⟨us, h1, h⟩ := except_bind_ok h
  obtain ⟨ss, h2, h⟩ := except_bind_ok h
  obtain ⟨tsv, h3, h⟩ := except_bind_ok h
  obtain ⟨ids, h4, h⟩ := except_bind_ok h
  exact ⟨us, ss, tsv, ids, colE_ok_iff.mp h1, colE_ok_iff.mp h2,
    colE_ok_iff.mp h3, h4, (Except.ok.inj h).symm⟩

theorem addInteractionId_length {df d : DF} (hwf : df.wf)
    (h : addInteractionId df = .ok d) : d.rows.length = df.rows.length := by
  by_cases hm : "interaction_id" ∈ df.cols
  · rw [addInteractionId_mem hm h]
  · obtain ⟨us, ss, tsv, ids, h1, h2, h3, h4, rfl⟩ := addInteractionId_not_mem hm h
    have hids : ids.length = df.rows.length := by
      have := exMap_ok_length h4
      rw [List.length_zip, List.length_zip] at this
      rw [this, getCol?_length h1, getCol?_length h2, getCol?_length h3]
      simp
    exact setCol_rows_length "interaction_id" hids

theorem transform_ok_destruct {df d : DF} (h : transform_data df = .ok d) :
    (df.isEmptyDF = true ∧ d = df) ∨
    (df.isEmptyDF = false ∧ ∃ m, enrich df = .ok m ∧ addInteractionId m = .ok d) := by
  unfold transform_data at h
  by_cases he : df.isEmptyDF
  · rw [if_pos he] at h
    exact Or.inl ⟨he, (Except.ok.inj h).symm⟩
  · rw [if_neg he] at h
    obtain ⟨m, h1, h2⟩ := except_bind_ok h
    exact Or.inr ⟨by simpa using he, m, h1, h2⟩

theorem transform_ok_length {df d : DF} (hwf : df.wf)
    (h : transform_data df = .ok d) : d.rows.length = df.rows.length := by
  rcases transform_ok_destruct h with ⟨_, rfl⟩ | ⟨_, m, h1, h2⟩
  · rfl
  · obtain ⟨hmwf, hmlen, _, _, _, _⟩ := enrich_ok_spec hwf h1
    rw [addInteractionId_length hmwf h2, hmlen]

/-! ### Extraction produces well-formed DataFrames -/

theorem dfFromRecords_wf (recs : List Record) : (dfFromRecords recs).wf := by
  intro r hr
  simp only [dfFromRecords, List.mem_map] at hr
  rcases hr with ⟨rec, _, rfl⟩
  simp [dfFromRecords]

theorem extract_data_wf (files : List String) : (extract_data files).wf := by
  unfold extract_data
  split
  · intro r hr; simp [DF.emptyDF] at hr
  · dsimp only
    split
    · intro r hr; simp [DF.emptyDF] at hr
    · exact dfFromRecords_wf _

/-! ## Claim theorems -/

/-- C1: for every input record set, a successful `transform_data` returns a
record set with exactly the same number of records as its input —
enrichment adds derived fields but never drops, adds or merges records —
and in particular `size(transform(extract(files))) = size(extract(files))`
for every directory of files. -/
theorem c1_transform_preserves_count :
    (∀ df df' : DF, df.wf → transform_data df = .ok df' →
      df'.rows.length = df.rows.length) ∧
    (∀ (files : List String) (df' : DF),
      transform_data (extract_data files) = .ok df' →
      df'.rows.length = (extract_data files).rows.length) :=
  ⟨fun _ _ hwf h => transform_ok_length hwf h,
   fun files _ h => transform_ok_length (extract_data_wf files) h⟩

/-- Witness for C1: the concrete one-record set `dfC4` transforms
successfully preserving the record count. -/
theorem c1_witness :
    dfC4.wf ∧ transform_data dfC4 = .ok dfC4out ∧
    dfC4out.rows.length = dfC4.rows.length :=
  ⟨by decide, by decide,
   c1_transform_preserves_count.1 dfC4 dfC4out (by decide) (by decide)⟩

/-! ### C4 machinery: the synthesized-id formula -/

theorem map_time_inj {a b : List Int}
    (h : List.map Value.time a = List.map Value.time b) : a = b := by
  induction a generalizing b with
  | nil => cases b with
    | nil => rfl
    | cons x xs => simp at h
  | cons x xs ih =>
    cases b with
    | nil => simp at h
    | cons y ys =>
      simp only [List.map_cons, List.cons.injEq, Value.time.injEq] at h
      rw [h.1, ih h.2]

theorem exMap_synth_zip {us ss : List Value} {ts : List Int} :
    exMap (fun p : Value × Value × Value => synthIdCell p.1 p.2.1 p.2.2)
      (us.zip (ss.zip (ts.map Value.time))) =
    .ok ((us.zip (ss.zip ts)).map (fun p => synthSpec p.1 p.2.1 p.2.2)) := by
  induction us generalizing ss ts with
  | nil => simp [exMap]
  | cons u us ih =>
    cases ss with
    | nil => simp [exMap]
    | cons s ss =>
      cases ts with
      | nil => simp [exMap]
      | cons t ts =>
        rw [exMap.eq_def]
        simp only [List.zip_cons_cons, List.map_cons]
        rw [ih]
        simp [synthIdCell, synthSpec]

/-- C4: `interaction_id` synthesis is an all-or-nothing column-level
decision.  When the column is present in the input it passes through
(modulo the string-conversion pass) with no per-record synthesis; when it
is absent from all records, every record receives exactly
`{user_id}_{session_id}_{unix_timestamp}` built from its (enriched)
`user_id`, `session_id` and the integer epoch seconds of its parsed
timestamp. -/
theorem c4_interaction_id_synthesis (df df' : DF) (hwf : df.wf)
    (hne : df.isEmptyDF = false) (h : transform_data df = .ok df') :
    ("interaction_id" ∈ df.cols →
      df'.getCol? "interaction_id" = (df.getCol? "interaction_id").map
        (fun vs => if colConverted vs then vs.map stringifyLower else vs)) ∧
    (∀ (us ss : List Value) (ts : List Int),
      "interaction_id" ∉ df.cols →
      df'.getCol? "user_id" = some us →
      df'.getCol? "session_id" = some ss →
      df'.getCol? "timestamp" = some (ts.map Value.time) →
      df'.getCol? "interaction_id" =
        some ((us.zip (ss.zip ts)).map (fun p => synthSpec p.1 p.2.1 p.2.2))) := by
  rcases transform_ok_destruct h with ⟨he, rfl⟩ | ⟨he, m, h1, h2⟩
  · rw [hne] at he; cases he
  · obtain ⟨hmwf, hmlen, hcolsm, huntouched, ⟨tsE, htsElen, htsE⟩, _⟩ :=
      enrich_ok_spec hwf h1
    constructor
    · intro hm
      have hmmem : "interaction_id" ∈ m.cols := (hcolsm _).mpr (Or.inl hm)
      rw [addInteractionId_mem hmmem h2]
      exact huntouched _ (by decide)
    · intro us ss ts hno hus hss hts
      have hmno : "interaction_id" ∉ m.cols := by
        rw [hcolsm]
        rintro (hc | hc)
        · exact hno hc
        · revert hc; decide
      obtain ⟨us', ss', tsv, ids, g1, g2, g3, g4, rfl⟩ :=
        addInteractionId_not_mem hmno h2
      have hidlen : ids.length = m.rows.length := by
        have hlen := exMap_ok_length g4
        rw [List.length_zip, List.length_zip] at hlen
        rw [hlen, getCol?_length g1, getCol?_length g2, getCol?_length g3]
        simp
      rw [getCol?_setCol_ne hmwf hidlen (by decide)] at hus
      rw [getCol?_setCol_ne hmwf hidlen (by decide)] at hss
      rw [getCol?_setCol_ne hmwf hidlen (by decide)] at hts
      have hus' : us' = us := Option.some.inj (g1.symm.trans hus)
      have hss' : ss' = ss := Option.some.inj (g2.symm.trans hss)
      have htsv : tsv = List.map Value.time tsE :=
        Option.some.inj (g3.symm.trans htsE)
      have htseq : tsE = ts := by
        have := Option.some.inj (htsE.symm.trans hts)
        exact map_time_inj this
      rw [getCol?_setCol_self hmwf hidlen]
      refine congrArg some ?_
      have g4' := g4
      rw [hus', hss', htsv, htseq] at g4'
      rw [exMap_synth_zip] at g4'
      exact (Except.ok.inj g4').symm

/-- Witness for C4: the spec's §8 example — `user_id="u1"`,
`session_id="s1"`, epoch seconds 1700000000, no `interaction_id` column —
synthesizes exactly `"u1_s1_1700000000"`. -/
theorem c4_witness :
    dfC4.wf ∧ dfC4.isEmptyDF = false ∧ transform_data dfC4 = .ok dfC4out ∧
    "interaction_id" ∉ dfC4.cols ∧
    dfC4out.getCol? "interaction_id" = some [Value.str "u1_s1_1700000000"] := by
  refine ⟨by decide, by decide, by decide, by decide, ?_⟩
  have h := (c4_interaction_id_synthesis dfC4 dfC4out (by decide) (by decide)
    (by decide)).2 [Value.str "u1"] [Value.str "s1"] [(1700000000 : Int)]
    (by decide) (by decide) (by decide) (by decide)
  rw [h]
  rfl

/-! ### C2 / C10 machinery -/

theorem getD_map_stringify {vs : List Value} {j : Nat} (hj : j < vs.length) :
    (vs.map stringifyLower).getD j Value.nan = stringifyLower (vs.getD j Value.nan) := by
  induction vs generalizing j with
  | nil => simp at hj
  | cons v vs ih =>
    cases j with
    | zero => simp
    | succ k => simpa using ih (by simpa using hj)

theorem getCol?_mem {df : DF} {c : String} {vs : List Value}
    (h : df.getCol? c = some vs) : c ∈ df.cols := by
  unfold DF.getCol? at h
  cases hi : idxOf? df.cols c with
  | none => rw [hi] at h; exact absurd h (by simp)
  | some i => exact idxOf?_some_mem hi

/-- Core of C2/C10: a column that is not overwritten by the transform, is
`object`-dtyped with a non-null entry, passes through the lower-casing
pass, turning each missing entry into the literal string `"nan"`. -/
theorem transform_untouched_col {df df' : DF} {f : String} {vs : List Value}
    (hwf : df.wf) (h : transform_data df = .ok df') (hf : f ∉ derivedCols)
    (hcol : df.getCol? f = some vs) (hconv : colConverted vs = true)
    (hrows : df.rows ≠ []) :
    df'.getCol? f = some (vs.map stringifyLower) := by
  rcases transform_ok_destruct h with ⟨he, rfl⟩ | ⟨he, m, h1, h2⟩
  · exfalso
    unfold DF.isEmptyDF at he
    rcases (Bool.or_eq_true _ _).mp he with hr | hc
    · exact hrows (List.isEmpty_iff.mp hr)
    · have hmem := getCol?_mem hcol
      rw [List.isEmpty_iff.mp hc] at hmem
      simp at hmem
  · obtain ⟨hmwf, hmlen, hcolsm, huntouched, _, _⟩ := enrich_ok_spec hwf h1
    have hm : m.getCol? f = some (vs.map stringifyLower) := by
      rw [huntouched f hf, hcol]
      simp [hconv]
    by_cases hid : "interaction_id" ∈ df.cols
    · rw [addInteractionId_mem ((hcolsm _).mpr (Or.inl hid)) h2]
      exact hm
    · have hfne : f ≠ "interaction_id" := by
        intro hx
        rw [hx] at hcol
        exact hid (getCol?_mem hcol)
      have hmno : "interaction_id" ∉ m.cols := by
        rw [hcolsm]
        rintro (hc | hc)
        · exact hid hc
        · revert hc; decide
      obtain ⟨us, ss, tsv, ids, g1, g2, g3, g4, rfl⟩ :=
        addInteractionId_not_mem hmno h2
      have hidlen : ids.length = m.rows.length := by
        have hlen := exMap_ok_length g4
        rw [List.length_zip, List.length_zip] at hlen
        rw [hlen, getCol?_length g1, getCol?_length g2, getCol?_length g3]
        simp
      rw [getCol?_setCol_ne hmwf hidlen hfne]
      exact hm

/-- C2 (amended): every record of the output of a successful transform of
a nonempty record set has an `interaction_id` entry — the column is
always present — but uniqueness fails on mixed-presence inputs: when the
input carries the column (with a string somewhere) every missing entry
becomes the literal string `"nan"`, so two records lacking the field
receive the same id. -/
theorem c2_interaction_id_presence (df df' : DF) (hwf : df.wf)
    (hne : df.isEmptyDF = false) (h : transform_data df = .ok df') :
    "interaction_id" ∈ df'.cols ∧
    (∀ (vs : List Value) (j : Nat),
      df.getCol? "interaction_id" = some vs → colConverted vs = true →
      j < vs.length → vs.getD j Value.nan = Value.nan →
      df'.getCol? "interaction_id" = some (vs.map stringifyLower) ∧
      (vs.map stringifyLower).getD j Value.nan = Value.str "nan") := by
  have hrows : df.rows ≠ [] := by
    unfold DF.isEmptyDF at hne
    intro hx
    rw [hx] at hne
    simp at hne
  constructor
  · rcases transform_ok_destruct h with ⟨he, rfl⟩ | ⟨he, m, h1, h2⟩
    · rw [hne] at he; cases he
    · obtain ⟨hmwf, hmlen, hcolsm, _, _, _⟩ := enrich_ok_spec hwf h1
      by_cases hid : "interaction_id" ∈ df.cols
      · rw [addInteractionId_mem ((hcolsm _).mpr (Or.inl hid)) h2]
        exact (hcolsm _).mpr (Or.inl hid)
      · have hmno : "interaction_id" ∉ m.cols := by
          rw [hcolsm]
          rintro (hc | hc)
          · exact hid hc
          · revert hc; decide
        obtain ⟨us, ss, tsv, ids, g1, g2, g3, g4, rfl⟩ :=
          addInteractionId_not_mem hmno h2
        exact setCol_cols_mem.mpr (Or.inl rfl)
  · intro vs j hcol hconv hj hnan
    refine ⟨transform_untouched_col hwf h (by decide) hcol hconv hrows, ?_⟩
    rw [getD_map_stringify hj, hnan]
    rfl

/-- Witness for C2 (amended): on the mixed-presence record set `dfC2` the
column is present and the two records lacking the field both get the
string `"nan"`. -/
theorem c2_witness :
    dfC2.wf ∧ dfC2.isEmptyDF = false ∧ transform_data dfC2 = .ok dfC2out ∧
    "interaction_id" ∈ dfC2out.cols ∧
    dfC2out.getCol? "interaction_id" =
      some [Value.str "a", Value.str "nan", Value.str "nan"] := by
  have happ := c2_interaction_id_presence dfC2 dfC2out (by decide) (by decide)
    (by decide)
  refine ⟨by decide, by decide, by decide, happ.1, ?_⟩
  have h2 := (happ.2 [Value.str "a", Value.nan, Value.nan] 1 (by decide)
    (by decide) (by decide) (by decide)).1
  rw [h2]
  rfl

/-- Counterexample to C2 as stated: on the mixed-presence record set
`dfC2` the output `interaction_id` values are `"a"`, `"nan"`, `"nan"` —
not pairwise distinct. -/
theorem c2_counterexample :
    transform_data dfC2 = .ok dfC2out ∧
    dfC2out.getCol? "interaction_id" =
      some [Value.str "a", Value.str "nan", Value.str "nan"] ∧
    ¬ List.Nodup [Value.str "a", Value.str "nan", Value.str "nan"] :=
  ⟨by decide, by decide, by decide⟩

/-- C10: a string-typed field present on some records and missing on
others is converted by the transform to the literal lower-case string
`"nan"` on the missing records, and the loader's null conversion — which
maps only `None` and float NaN to SQL NULL — passes the text `"nan"`
through unchanged, so it is loaded as text, not as SQL null. -/
theorem c10_missing_string_becomes_nan (df df' : DF) (f : String)
    (vs : List Value) (j : Nat) (hwf : df.wf)
    (h : transform_data df = .ok df') (hf : f ∉ derivedCols)
    (hcol : df.getCol? f = some vs) (hconv : colConverted vs = true)
    (hj : j < vs.length) (hnan : vs.getD j Value.nan = Value.nan)
    (hrows : df.rows ≠ []) :
    df'.getCol? f = some (vs.map stringifyLower) ∧
    (vs.map stringifyLower).getD j Value.nan = Value.str "nan" ∧
    loadConvert ((vs.map stringifyLower).getD j Value.nan) = Value.str "nan" ∧
    (∀ v, loadConvert v = Value.null ↔ v = Value.null ∨ v = Value.nan) := by
  have hstep : (vs.map stringifyLower).getD j Value.nan = Value.str "nan" := by
    rw [getD_map_stringify hj, hnan]
    rfl
  refine ⟨transform_untouched_col hwf h hf hcol hconv hrows, hstep, ?_, ?_⟩
  · rw [hstep]
    rfl
  · intro v
    cases v <;> simp [loadConvert]

/-- Witness for C10: `device_type` is present on the first record of
`dfC10` and missing on the second; the transform stores the string
`"nan"` there and the loader keeps it as text. -/
theorem c10_witness :
    dfC10.wf ∧ transform_data dfC10 = .ok dfC10out ∧
    dfC10out.getCol? "device_type" = some [Value.str "mobile", Value.str "nan"] ∧
    loadConvert (Value.str "nan") = Value.str "nan" ∧
    loadConvert Value.nan = Value.null := by
  have happ := c10_missing_string_becomes_nan dfC10 dfC10out "device_type"
    [Value.str "Mobile", Value.nan] 1 (by decide) (by decide) (by decide)
    (by decide) (by decide) (by decide) (by decide) (by decide)
  refine ⟨by decide, by decide, ?_, by decide, by decide⟩
  rw [happ.1]
  rfl

/-! ### C3 machinery: the classifier against the spec's rule table -/

theorem categorize_str_eq_spec (s : String) :
    categorize_referrer (Value.str s) = .ok (refCatSpecRaw s) := by
  unfold categorize_referrer refCatSpecRaw
  simp only [Value.isNa, Bool.false_eq_true, if_false, Bool.or_assoc]
  by_cases h0 : s = ""
  · simp [h0]
  · simp only [if_neg h0]
    split_ifs <;>
      simp_all [firstRule, refRules, List.any_cons, List.any_nil, Bool.or_assoc]

theorem firstRule_mem (s : String) : ∀ rs : List (List String × String),
    firstRule s rs = "other" ∨ firstRule s rs ∈ rs.map Prod.snd := by
  intro rs
  induction rs with
  | nil => left; rfl
  | cons r rest ih =>
    cases r with
    | mk pats cat =>
      by_cases hc : pats.any (fun p => strContains s p)
      · right; simp [firstRule, hc]
      · rcases ih with h | h
        · left; simpa [firstRule, hc] using h
        · right
          simp only [firstRule, hc, Bool.false_eq_true, if_false, List.map_cons,
            List.mem_cons]
          exact Or.inr h

theorem refCatSpecRaw_values (s : String) :
    refCatSpecRaw s ∈ ["direct", "search", "social", "news", "email", "other"] := by
  unfold refCatSpecRaw
  by_cases h0 : s = ""
  · simp [h0]
  · rw [if_neg h0]
    rcases firstRule_mem s refRules with h | h
    · simp [h]
    · simp only [refRules, List.map_cons, List.map_nil] at h
      rcases (by simpa using h :
          firstRule s refRules = "search" ∨ firstRule s refRules = "social" ∨
          firstRule s refRules = "news" ∨ firstRule s refRules = "email") with
        h1 | h1 | h1 | h1 <;> simp [h1]

theorem categorize_ok_cases {v rc : Value} (h : refCell v = .ok rc) :
    (v.isNa = true → rc = Value.str "direct") ∧
    (∀ s, v = Value.str s → rc = Value.str (refCatSpecRaw s)) ∧
    stringifyLower rc = rc := by
  unfold refCell at h
  cases v with
  | nan =>
    simp only [categorize_referrer, Value.isNa, if_pos, Except.map] at h
    refine ⟨fun _ => (Except.ok.inj h).symm, fun s hs => Value.noConfusion hs, ?_⟩
    rw [← Except.ok.inj h]
    rfl
  | null =>
    simp only [categorize_referrer, Value.isNa, if_pos, Except.map] at h
    refine ⟨fun _ => (Except.ok.inj h).symm, fun s hs => Value.noConfusion hs, ?_⟩
    rw [← Except.ok.inj h]
    rfl
  | str s =>
    rw [categorize_str_eq_spec] at h
    simp only [Except.map] at h
    have hrc : rc = Value.str (refCatSpecRaw s) := (Except.ok.inj h).symm
    refine ⟨fun hna => by simp [Value.isNa] at hna, fun s' hs' => ?_, ?_⟩
    · cases hs'
      exact hrc
    · have hv := refCatSpecRaw_values s
      rcases (by simpa using hv :
          refCatSpecRaw s = "direct" ∨ refCatSpecRaw s = "search" ∨
          refCatSpecRaw s = "social" ∨ refCatSpecRaw s = "news" ∨
          refCatSpecRaw s = "email" ∨ refCatSpecRaw s = "other") with
        h1 | h1 | h1 | h1 | h1 | h1 <;> rw [hrc, h1] <;> rfl
  | int n => simp [categorize_referrer, Value.isNa, Except.map] at h
  | dec m e => simp [categorize_referrer, Value.isNa, Except.map] at h
  | bool b => simp [categorize_referrer, Value.isNa, Except.map] at h
  | time t => simp [categorize_referrer, Value.isNa, Except.map] at h
  | date d => simp [categorize_referrer, Value.isNa, Except.map] at h
  | timeOfDay q => simp [categorize_referrer, Value.isNa, Except.map] at h

/-- C3 (amended): `transform_data` assigns `referrer_category` by
evaluating the classification rules in the fixed priority order
(missing/empty referrer, then `"google"`, the social pool, the news pool,
the email pool, else `"other"`), where each rule is a substring test
against the referrer string *as stored* — classification runs before the
lower-casing pass, so an upper-case referrer such as `"GOOGLE"` does not
match the lower-case patterns. -/
theorem c3_referrer_category_raw (df df' : DF) (hwf : df.wf)
    (hne : df.isEmptyDF = false) (h : transform_data df = .ok df') :
    ∃ (refs out : List Value),
      df.getCol? "referrer" = some refs ∧
      df'.getCol? "referrer_category" = some out ∧
      List.Forall₂ (fun v rc =>
        (v.isNa = true → rc = Value.str "direct") ∧
        (∀ s, v = Value.str s → rc = Value.str (refCatSpecRaw s))) refs out := by
  rcases transform_ok_destruct h with ⟨he, rfl⟩ | ⟨he, m, h1, h2⟩
  · rw [hne] at he; cases he
  · obtain ⟨hmwf, hmlen, hcolsm, hunt, _, refs, rcats, hrefs, hexm, hout⟩ :=
      enrich_ok_spec hwf h1
    have hout' : df'.getCol? "referrer_category" = m.getCol? "referrer_category" := by
      by_cases hid : "interaction_id" ∈ df.cols
      · rw [addInteractionId_mem ((hcolsm _).mpr (Or.inl hid)) h2]
      · have hmno : "interaction_id" ∉ m.cols := by
          rw [hcolsm]
          rintro (hc | hc)
          · exact hid hc
          · revert hc; decide
        obtain ⟨us, ss, tsv, ids, g1, g2, g3, g4, rfl⟩ :=
          addInteractionId_not_mem hmno h2
        have hidlen : ids.length = m.rows.length := by
          have hlen := exMap_ok_length g4
          rw [List.length_zip, List.length_zip] at hlen
          rw [hlen, getCol?_length g1, getCol?_length g2, getCol?_length g3]
          simp
        exact getCol?_setCol_ne hmwf hidlen (by decide)
    have hfa := exMap_ok_forall₂ hexm
    refine ⟨refs, _, hrefs, hout'.trans hout, ?_⟩
    by_cases hcv : colConverted rcats = true
    · rw [if_pos hcv, List.forall₂_map_right_iff]
      refine hfa.imp (fun a b hab => ?_)
      have hc := categorize_ok_cases hab
      rw [hc.2.2]
      exact ⟨hc.1, hc.2.1⟩
    · rw [if_neg hcv]
      exact hfa.imp (fun a b hab =>
        ⟨(categorize_ok_cases hab).1, (categorize_ok_cases hab).2.1⟩)

/-- Witness for C3 (amended): on the record set with referrer `"GOOGLE"`
the assigned category is exactly the rule table applied to the raw
string, i.e. `"other"`. -/
theorem c3_witness :
    dfC3.wf ∧ dfC3.isEmptyDF = false ∧ transform_data dfC3 = .ok dfC3out ∧
    dfC3out.getCol? "referrer_category" = some [Value.str "other"] ∧
    refCatSpecRaw "GOOGLE" = "other" := by
  obtain ⟨refs, out, hrefs, hout, hfa⟩ :=
    c3_referrer_category_raw dfC3 dfC3out (by decide) (by decide) (by decide)
  have hrefs' : refs = [Value.str "GOOGLE"] := by
    have hd : dfC3.getCol? "referrer" = some [Value.str "GOOGLE"] := by decide
    exact Option.some.inj (hrefs.symm.trans hd)
  subst hrefs'
  cases hfa with
  | cons hpair htail =>
    cases htail
    have hb := hpair.2 "GOOGLE" rfl
    refine ⟨by decide, by decide, by decide, ?_, by decide⟩
    rw [hout, hb]
    decide

/-- Counterexample to C3 as stated: the code classifies the referrer
before lower-casing, so referrer `"GOOGLE"` gets category `"other"`,
while the claim's rule table applied to the lower-cased referrer yields
`"search"`. -/
theorem c3_counterexample :
    transform_data dfC3 = .ok dfC3out ∧
    dfC3out.getCol? "referrer_category" = some [Value.str "other"] ∧
    refCatSpecLower "GOOGLE" = "search" ∧
    Value.str "other" ≠ Value.str "search" :=
  ⟨by decide, by decide, by decide, by decide⟩

/-- C6 (code evaluation): the schema that `create_database_schema`
declares enforces uniqueness on `interaction_id` alone — its only key is
the single-column `PRIMARY KEY` — while the `INSERT` built by `load_data`
names the composite pair `(interaction_id, event_date)` as its
`ON CONFLICT ... DO NOTHING` target.  The conflict target therefore does
not match any uniqueness constraint the declared schema provides. -/
theorem c6_schema_conflict_mismatch :
    schemaUniqueKeySets user_interactions_schema = [["interaction_id"]] ∧
    insertConflictTarget = ["interaction_id", "event_date"] ∧
    insertConflictAction = "DO NOTHING" ∧
    insertConflictTarget ∉ schemaUniqueKeySets user_interactions_schema :=
  ⟨by decide, rfl, rfl, by decide⟩

/-- C7: `load_data` reports the pair `(inserted, skipped)` for every
completed non-empty load, with `inserted + skipped` equal to the number
of input records, and on an empty record set it is a no-op — no database
event is emitted and no summary is produced. -/
theorem c7_load_summary (df : DF) (env : LoadEnv) :
    (df.isEmptyDF = true → load_data df env = ([], .ok none)) ∧
    (∀ i s : Int, (load_data df env).2 = .ok (some (i, s)) →
      i + s = (df.rows.length : Int)) ∧
    (df.isEmptyDF = false → ∀ r, (load_data df env).2 = .ok r → r ≠ none) := by
  refine ⟨?_, ?_, ?_⟩
  · intro he
    unfold load_data
    rw [if_pos he]
  · intro i s hres
    unfold load_data at hres
    by_cases he : df.isEmptyDF
    · rw [if_pos he] at hres
      simp at hres
    · rw [if_neg he] at hres
      by_cases hc : env.connectOk
      · rw [if_neg (by simpa using hc)] at hres
        dsimp only at hres
        cases hbr : (runBatches env 0 (chunks 100 df.rows)).2 with
        | error e => rw [hbr] at hres; simp at hres
        | ok n =>
          rw [hbr] at hres
          dsimp only at hres
          by_cases hcm : env.commitOk
          · rw [if_pos hcm] at hres
            simp only [Option.some.injEq, Prod.mk.injEq, Except.ok.injEq] at hres
            omega
          · rw [if_neg hcm] at hres
            simp at hres
      · rw [if_pos (by simpa using hc)] at hres
        simp at hres
  · intro hne r hres
    unfold load_data at hres
    rw [if_neg (by simp [hne])] at hres
    by_cases hc : env.connectOk
    · rw [if_neg (by simpa using hc)] at hres
      dsimp only at hres
      cases hbr : (runBatches env 0 (chunks 100 df.rows)).2 with
      | error e => rw [hbr] at hres; simp at hres
      | ok n =>
        rw [hbr] at hres
        dsimp only at hres
        by_cases hcm : env.commitOk
        · rw [if_pos hcm] at hres
          simp only [Except.ok.injEq] at hres
          rw [← hres]
          simp
        · rw [if_neg hcm] at hres
          simp at hres
    · rw [if_pos (by simpa using hc)] at hres
      simp at hres

/-- Witness for C7 at a concrete load: two records, one batch reporting
rowcount 1 (one conflict skipped): summary `(1, 1)` with `1 + 1 = 2`, and
the empty record set is a no-op. -/
theorem c7_witness :
    load_data DF.emptyDF envOK = ([], .ok none) ∧
    (load_data dfC10out envOK).2 = .ok (some (1, 1)) ∧
    (1 : Int) + 1 = ((dfC10out.rows.length : Nat) : Int) := by
  refine ⟨(c7_load_summary DF.emptyDF envOK).1 (by decide), ?_, ?_⟩
  · decide
  · exact (c7_load_summary dfC10out envOK).2.1 1 1 (by decide)

/-! ### C8 machinery -/

theorem extract_foldl_filter (files : List String) :
    ∀ acc : List Json,
      files.foldl
        (fun acc f =>
          match parseFileContent f with
          | .ok js => acc ++ js
          | .error _ => acc) acc =
      (files.filter
        (fun f =>
          match parseFileContent f with
          | .ok _ => true
          | .error _ => false)).foldl
        (fun acc f =>
          match parseFileContent f with
          | .ok js => acc ++ js
          | .error _ => acc) acc := by
  induction files with
  | nil => intro acc; rfl
  | cons f fs ih =>
    intro acc
    cases hp : parseFileContent f with
    | ok js => simp [List.filter, hp, ih]
    | error e => simp [List.filter, hp, ih]

/-- C8: a file whose content fails to parse is skipped and extraction
continues — the extracted record set over any directory equals the one
over just its parseable files — and in the claim's concrete scenario (one
valid array-JSON file followed by one syntactically invalid file) the
result is exactly the valid file's records in file-then-line order. -/
theorem c8_extract_skips_bad_files :
    (∀ files : List String,
      extract_data files =
        extract_data (files.filter
          (fun f =>
            match parseFileContent f with
            | .ok _ => true
            | .error _ => false))) ∧
    (∀ (f1 f2 : String) (rs : List Json) (err : String),
      parseFileContent f1 = .ok rs → parseFileContent f2 = .error err →
      rs ≠ [] → extract_data [f1, f2] = dfFromRecords (rs.map jsonToRecord)) := by
  constructor
  · intro files
    unfold extract_data
    rw [extract_foldl_filter]
    by_cases he : files.isEmpty
    · rw [if_pos he, if_pos (by simp [List.isEmpty_iff.mp he])]
    · rw [if_neg he]
      by_cases hf : (files.filter
          (fun f =>
            match parseFileContent f with
            | .ok _ => true
            | .error _ => false)).isEmpty
      · rw [if_pos hf]
        rw [List.isEmpty_iff.mp hf]
        simp
      · rw [if_neg hf]
  · intro f1 f2 rs err h1 h2 hne
    unfold extract_data
    rw [if_neg (by simp)]
    dsimp only
    rw [List.foldl_cons, List.foldl_cons, List.foldl_nil, h1, h2]
    simp only [List.nil_append]
    rw [if_neg (by simpa using hne)]

/-- Witness for C8: the directory with one valid array-JSON file and one
invalid file yields exactly the valid file's records. -/
theorem c8_witness :
    parseFileContent fileGood =
      .ok [Json.obj [("user_id", Json.str "u1"), ("n", Json.int 3)]] ∧
    parseFileContent fileBad = .error "json.loads failed" ∧
    extract_data [fileGood, fileBad] =
      dfFromRecords
        ([Json.obj [("user_id", Json.str "u1"), ("n", Json.int 3)]].map
          jsonToRecord) := by
  refine ⟨rfl, rfl, ?_⟩
  exact c8_extract_skips_bad_files.2 fileGood fileBad
    [Json.obj [("user_id", Json.str "u1"), ("n", Json.int 3)]]
    "json.loads failed" rfl rfl (by simp)

/-! ### C5 machinery -/

theorem runBatches_events {env : LoadEnv} {i : Nat} {bs : List (List (List Value))} :
    ∀ ev ∈ (runBatches env i bs).1, ∃ rows, ev = DBEvent.executeBatch rows := by
  induction bs generalizing i with
  | nil => intro ev hev; simp [runBatches] at hev
  | cons b rest ih =>
    intro ev hev
    unfold runBatches at hev
    cases hbr : env.batchRes i with
    | error e =>
      rw [hbr] at hev
      simp only [List.mem_singleton] at hev
      exact ⟨_, hev⟩
    | ok n =>
      rw [hbr] at hev
      dsimp only at hev
      rcases List.mem_cons.mp hev with rfl | h
      · exact ⟨_, rfl⟩
      · exact ih _ h

theorem durable_no_commit {evs : List DBEvent} (h : DBEvent.commit ∉ evs) :
    ∀ st : Store, (applyEvents st evs).durable = st.durable := by
  induction evs with
  | nil => intro st; rfl
  | cons e rest ih =>
    intro st
    have he : e ≠ DBEvent.commit := fun hx => h (by simp [hx])
    have hrest : DBEvent.commit ∉ rest := fun hx => h (by simp [hx])
    unfold applyEvents at ih ⊢
    rw [List.foldl_cons, ih hrest]
    cases e <;> simp [stepStore] <;> exact absurd rfl he

/-- C5: `load_data` commits exactly once per call, after all batches — on
success the event trace is the connect, the executed batches, then a
single commit and the handle releases — and if any exception is raised at
any point the call re-raises it, no commit is ever issued, and the store's
durable rows after the whole trace are exactly what they were before (the
transaction is rolled back; nothing from any batch persists). -/
theorem c5_load_transactionality (df : DF) (env : LoadEnv) (st : Store) :
    (∀ e, (load_data df env).2 = .error e →
      (applyEvents st (load_data df env).1).durable = st.durable ∧
      (load_data df env).1.count DBEvent.commit = 0) ∧
    (∀ s, (load_data df env).2 = .ok (some s) →
      ∃ evs, (load_data df env).1 =
        DBEvent.connect :: evs ++
          [DBEvent.commit, DBEvent.closeCursor, DBEvent.closeConn] ∧
        (∀ ev ∈ evs, ∃ rows, ev = DBEvent.executeBatch rows) ∧
        (load_data df env).1.count DBEvent.commit = 1) := by
  unfold load_data
  by_cases he : df.isEmptyDF
  · rw [if_pos he]
    constructor
    · intro e h; simp at h
    · intro s h; simp at h
  · rw [if_neg he]
    by_cases hc : env.connectOk
    · rw [if_neg (by simpa using hc)]
      dsimp only
      cases hbr : (runBatches env 0 (chunks 100 df.rows)).2 with
      | error e0 =>
        dsimp only
        have hnc : DBEvent.commit ∉
            DBEvent.connect :: (runBatches env 0 (chunks 100 df.rows)).1 ++
              [DBEvent.rollback, DBEvent.closeCursor, DBEvent.closeConn] := by
          intro hmem
          rcases List.mem_cons.mp hmem with h1 | h1
          · cases h1
          · rcases List.mem_append.mp h1 with h2 | h2
            · obtain ⟨rows, hrow⟩ := runBatches_events _ h2; cases hrow
            · simp at h2
        constructor
        · intro e h
          exact ⟨durable_no_commit hnc st, List.count_eq_zero.mpr hnc⟩
        · intro s h; simp at h
      | ok n =>
        dsimp only
        by_cases hcm : env.commitOk
        · rw [if_pos hcm]
          have hnc : DBEvent.commit ∉ (runBatches env 0 (chunks 100 df.rows)).1 := by
            intro hm
            obtain ⟨rows, hrow⟩ := runBatches_events _ hm
            cases hrow
          constructor
          · intro e h; simp at h
          · intro s h
            refine ⟨(runBatches env 0 (chunks 100 df.rows)).1, rfl,
              fun ev hev => runBatches_events ev hev, ?_⟩
            simp [List.count_cons, List.count_append,
              List.count_eq_zero.mpr hnc]
        · rw [if_neg hcm]
          have hnc : DBEvent.commit ∉
              DBEvent.connect :: (runBatches env 0 (chunks 100 df.rows)).1 ++
                [DBEvent.rollback, DBEvent.closeCursor, DBEvent.closeConn] := by
            intro hmem
            rcases List.mem_cons.mp hmem with h1 | h1
            · cases h1
            · rcases List.mem_append.mp h1 with h2 | h2
              · obtain ⟨rows, hrow⟩ := runBatches_events _ h2; cases hrow
              · simp at h2
          constructor
          · intro e h
            exact ⟨durable_no_commit hnc st, List.count_eq_zero.mpr hnc⟩
          · intro s h; simp at h
    · rw [if_pos (by simpa using hc)]
      constructor
      · intro e h
        refine ⟨durable_no_commit (by simp) st, by simp⟩
      · intro s h; simp at h

/-- Witness for C5: on the concrete record set `dfC10out`, the failing
environment re-raises, commits nothing and leaves the durable store
unchanged, while the successful environment commits exactly once. -/
theorem c5_witness :
    (load_data dfC10out envBad).2 = .error "insert failed" ∧
    (applyEvents ⟨[], []⟩ (load_data dfC10out envBad).1).durable = [] ∧
    (load_data dfC10out envBad).1.count DBEvent.commit = 0 ∧
    (load_data dfC10out envOK).1.count DBEvent.commit = 1 := by
  have h1 := (c5_load_transactionality dfC10out envBad ⟨[], []⟩).1
    "insert failed" (by decide)
  refine ⟨by decide, h1.1, h1.2, ?_⟩
  obtain ⟨evs, htr, hbatch, hcount⟩ :=
    (c5_load_transactionality dfC10out envOK ⟨[], []⟩).2 (1, 1) (by decide)
  exact hcount

/-- C9: the orchestrator never propagates an exception — for every
environment (i.e. every combination of outcomes of schema setup,
extraction, transformation and loading) `run_etl_pipeline` returns a
terminal state, returning `FAILED` exactly when its body raised; each
pipeline step is attempted at most once (the step trace has no
duplicates, so nothing is retried). -/
theorem c9_orchestrator_swallows_errors (env : PipeEnv) (files : List String) :
    (run_etl_pipeline env files).1 = (run_etl_body env files).1 ∧
    (run_etl_pipeline env files).1.Nodup ∧
    (∀ e, (run_etl_body env files).2 = .error e →
      (run_etl_pipeline env files).2 = PipeResult.failed) ∧
    (∀ s, (run_etl_body env files).2 = .ok s →
      (run_etl_pipeline env files).2 = s) := by
  refine ⟨rfl, ?_, ?_, ?_⟩
  · show (run_etl_body env files).1.Nodup
    unfold run_etl_body
    dsimp only
    repeat' split
    all_goals try dsimp only
    all_goals try (repeat' split)
    all_goals try dsimp only
    all_goals decide
  · intro e h
    simp [run_etl_pipeline, h]
  · intro s h
    simp [run_etl_pipeline, h]

/-- Witness for C9: with a failing schema step the body raises, the
orchestrator returns `FAILED` without re-raising, and no step is
attempted twice. -/
theorem c9_witness :
    (run_etl_body pipeEnvFail ["x"]).2 = .error "ddl failed" ∧
    (run_etl_pipeline pipeEnvFail ["x"]).2 = PipeResult.failed ∧
    (run_etl_pipeline pipeEnvFail ["x"]).1.Nodup := by
  have happ := c9_orchestrator_swallows_errors pipeEnvFail ["x"]
  exact ⟨by decide, happ.2.2.1 "ddl failed" (by decide), happ.2.1⟩
